import Mathlib

/-!
# ChLineNurbs: setup validation and point evaluation

A shallow embedding of `src/chrono/geometry/ChLineNurbs.cpp`.

Modelling conventions.

* `double` is modelled by `ℚ` (exact arithmetic); rounding is out of scope.
* `int` values are integers (`Int`), `size_t` values are naturals (`Nat`).  The implicit
  conversions of the source are written out: `toSizeT` for `int → size_t` (reduction modulo
  `2^64`, as happens when `mpoints.size()` is compared with `morder+1`), `sizeAdd` for `size_t`
  addition and `sizeToInt` for `size_t → int` (as in `int n = points.size()`).  Sums of `int`s
  are modelled by their mathematical value (signed overflow has no defined behaviour in C++).
* The object `*this` is an explicit state `ChLineNurbs`; a mutating member function returns its
  outcome together with the state it leaves behind, so that writes made before a `throw`
  would remain visible.
* `ChBasisToolsBspline` and `ChBasisToolsNurbs` are not part of the file under study.  The
  member functions take the three helpers they call as a parameter `T : BasisTools`; the
  instance `basisTools` is the one described by the specification.
-/

set_option linter.unusedVariables false

namespace chrono
namespace geometry

/-! ## Numeric containers -/

/-- A 3D vector `ChVector<>`, with exact coordinates. -/
abbrev ChVector := ℚ × ℚ × ℚ

/-- The null vector `VNULL`. -/
def VNULL : ChVector := (0, 0, 0)

/-- A dynamic vector `ChVectorDynamic<>`: its entries in order. -/
abbrev ChVectorDynamic := List ℚ

/-- Largest value of an `int`. -/
def INT_MAX : Int := 2147483647

/-- Conversion of an `int` to `size_t` (64 bit): reduction modulo `2^64`. -/
def toSizeT (x : Int) : Nat := (x % 18446744073709551616).toNat

/-- Addition of two `size_t` values. -/
def sizeAdd (a b : Nat) : Nat := (a + b) % 18446744073709551616

/-- Conversion of a `size_t` to `int` (32 bit): the value modulo `2^32`, read as two's
complement. -/
def sizeToInt (x : Nat) : Int :=
  let r : Int := (x : Int) % 4294967296
  if r < 2147483648 then r else r - 4294967296

/-- `ChVectorDynamic::GetLength()`: the number of entries, an `int`. -/
def GetLength (v : ChVectorDynamic) : Int := v.length

/-- `ChVectorDynamic::Reset(n)`: resize to `n` entries, all zero. -/
def Reset (n : Int) : ChVectorDynamic := List.replicate n.toNat 0

/-- `ChVectorDynamic::FillElem(x)`: overwrite every entry with `x`. -/
def FillElem (v : ChVectorDynamic) (x : ℚ) : ChVectorDynamic := v.map (fun _ => x)

/-- `ChVectorDynamic::CopyFromMatrix(m)`: become a copy of `m`. -/
def CopyFromMatrix (m : ChVectorDynamic) : ChVectorDynamic := m

/-- Unchecked indexing with an `int` (`points[i]`, `mR(i)`): `none` when the index is outside
the container, where the C++ access is undefined. -/
def getInt? {α : Type} (l : List α) (i : Int) : Option α :=
  if i < 0 then none else l[i.toNat]?

/-! ## Exceptions -/

/-- The four `ChException`s thrown by `SetupData`, named as in the error taxonomy of the
specification; the source distinguishes them by their message. -/
inductive ChException where
  /-- "ChLineNurbs::SetupData requires order >= 1." -/
  | InvalidOrder
  /-- "ChLineNurbs::SetupData requires at least order+1 control points." -/
  | InsufficientControlPoints
  /-- "ChLineNurbs::SetupData: knots must have size=n_points+order+1" -/
  | MalformedKnotVector
  /-- "ChLineNurbs::SetupData: weights must have size=n_points" -/
  | MalformedWeightVector
deriving DecidableEq, Repr

/-- Outcomes of `SetupData` can be compared. -/
instance : DecidableEq (Except ChException Unit)
  | .ok _, .ok _ => isTrue rfl
  | .error a, .error b =>
    if h : a = b then isTrue (h ▸ rfl) else isFalse (fun e => h (Except.error.inj e))
  | .ok _, .error _ => isFalse (fun e => Except.noConfusion e)
  | .error _, .ok _ => isFalse (fun e => Except.noConfusion e)

/-! ## The helpers called by the curve -/

/-- The three static helpers of `ChBasisToolsBspline` / `ChBasisToolsNurbs` that
`ChLineNurbs` calls, with the argument order of the call sites. -/
structure BasisTools where
  /-- `ChBasisToolsBspline::FindSpan(p, u, knotU)`. -/
  FindSpan : Int → ℚ → ChVectorDynamic → Int
  /-- `ChBasisToolsNurbs::BasisEvaluate(p, u, Weights, Knots, R)`: the contents of `R` after
  the call. -/
  BasisEvaluate : Int → ℚ → ChVectorDynamic → ChVectorDynamic → ChVectorDynamic → ChVectorDynamic
  /-- `ChBasisToolsBspline::ComputeKnotUniformMultipleEnds(knotU, p)`: the contents of `knotU`
  after the call. -/
  ComputeKnotUniformMultipleEnds : ChVectorDynamic → Int → ChVectorDynamic

/-! ## The helpers, as the specification describes them -/

/-- Entry `i` of a knot vector, read with an `int` index; `0` outside the vector. -/
def knotAt (knotU : ChVectorDynamic) (i : Int) : ℚ := (getInt? knotU i).getD 0

namespace ChBasisToolsBspline

/-- Modelled from the spec: `ChBasisToolsBspline::ComputeKnotUniformMultipleEnds` is not in
the file under study.  Section 4.2: for `n` control points and order `p`, a sequence of length
`k = n+p+1` (the length `knotU` already has) whose first `p+1` entries are the domain minimum
`0`, whose last `p+1` entries are the domain maximum `1`, and whose `n-p-1` interior entries
are evenly spaced between them. -/
def ComputeKnotUniformMultipleEnds (knotU : ChVectorDynamic) (p : Int) : ChVectorDynamic :=
  let k : Nat := knotU.length
  let n : Int := (k : Int) - p - 1
  (List.range k).map (fun (i : Nat) =>
    if (i : Int) ≤ p then 0
    else if n ≤ (i : Int) then 1
    else (((i : Int) - p : Int) : ℚ) / ((n - p : Int) : ℚ))

/-- Modelled from the spec: `ChBasisToolsBspline::FindSpan` is not in the file under study.
Section 4.3: the span index `s` such that `u` lies in `[knot[s], knot[s+1])`, restricted to the
valid range `[p, n-1]` (with `n = k-p-1` the number of control points); at the upper boundary
of the domain (and beyond) the last valid span `n-1`, below the domain the first valid span
`p`.  The search is a linear scan of the spans `p, p+1, ..., n-1`. -/
def FindSpan (p : Int) (u : ℚ) (knotU : ChVectorDynamic) : Int :=
  let n : Int := (knotU.length : Int) - p - 1
  if knotAt knotU n ≤ u then n - 1
  else if u < knotAt knotU p then p
  else
    match (List.range (n - p).toNat).find?
        (fun (j : Nat) => decide (knotAt knotU (p + j) ≤ u ∧ u < knotAt knotU (p + j + 1))) with
    | some j => p + j
    | none => p

/-- Modelled from the spec: the ordinary B-spline basis values of section 4.4 (the helper
`ChBasisToolsBspline::BasisEvaluate` is not in the file under study).  `BasisN knotU s u d i`
is `N_{i,d}(u)` by the Cox-de Boor recursion, for `u` in the span `s` found by the span
locator: the basis function of degree `0` that is `1` is the one of the span `s` that contains
`u`, the others are `0`; a quotient with a zero denominator counts as `0`.  The specification
gives these values for `u` in the domain `[knot[p], knot[n]]`; it does not say what the
helper computes for another `u`, where this definition merely applies the same recursion. -/
def BasisN (knotU : ChVectorDynamic) (s : Int) (u : ℚ) : Nat → Int → ℚ
  | 0, i => if i = s then 1 else 0
  | d + 1, i =>
    (u - knotAt knotU i) / (knotAt knotU (i + d + 1) - knotAt knotU i) * BasisN knotU s u d i
    + (knotAt knotU (i + d + 2) - u) / (knotAt knotU (i + d + 2) - knotAt knotU (i + 1))
      * BasisN knotU s u d (i + 1)

end ChBasisToolsBspline

namespace ChBasisToolsNurbs

/-- Modelled from the spec: `ChBasisToolsNurbs::BasisEvaluate` is not in the file under study.
Section 4.4: with `s` the span of section 4.3 and `N_i(u)` the `p+1` basis values for `i` in
`[s-p, s]`, `numerator_i = N_i(u) * weight_i`, `denominator` is the sum of the numerators over
the same range, and `R_i = numerator_i / denominator`.  The result is the vector of the `p+1`
values `R_{s-p}, ..., R_s`, which overwrite `R`.  As for `BasisN`, the specification fixes
the values for `u` in the domain only. -/
def BasisEvaluate (p : Int) (u : ℚ) (Weights Knots R : ChVectorDynamic) : ChVectorDynamic :=
  let s : Int := ChBasisToolsBspline.FindSpan p u Knots
  let numerator : Nat → ℚ := fun j =>
    ChBasisToolsBspline.BasisN Knots s u p.toNat (s - p + j) * knotAt Weights (s - p + j)
  let denominator : ℚ := ((List.range (p + 1).toNat).map numerator).sum
  (List.range (p + 1).toNat).map (fun (j : Nat) => numerator j / denominator)

end ChBasisToolsNurbs

/-- The helpers as the specification describes them. -/
def basisTools : BasisTools where
  FindSpan := ChBasisToolsBspline.FindSpan
  BasisEvaluate := ChBasisToolsNurbs.BasisEvaluate
  ComputeKnotUniformMultipleEnds := ChBasisToolsBspline.ComputeKnotUniformMultipleEnds

/-! ## The curve -/

/-- The data members of `ChLineNurbs`. -/
structure ChLineNurbs where
  /-- control points, `std::vector<ChVector<>>` -/
  points : List ChVector
  /-- order, `int` -/
  p : Int
  /-- knot vector -/
  knots : ChVectorDynamic
  /-- weight vector -/
  weights : ChVectorDynamic
deriving DecidableEq

namespace ChLineNurbs

/-- `ChLineNurbs::SetupData(morder, mpoints, mknots, weights)`.  `mknots` and `weights` are
pointers that may be null (`none`).  Returns the outcome and the state of the object after the
call. -/
def SetupData (T : BasisTools) (self : ChLineNurbs) (morder : Int) (mpoints : List ChVector)
    (mknots : Option ChVectorDynamic) (weights : Option ChVectorDynamic) :
    Except ChException Unit × ChLineNurbs :=
  if morder < 1 then
    (.error .InvalidOrder, self)
  else if mpoints.length < toSizeT (morder + 1) then
    (.error .InsufficientControlPoints, self)
  else if (match mknots with
      | some kn => toSizeT (GetLength kn) != sizeAdd (sizeAdd mpoints.length (toSizeT morder)) 1
      | none => false) then
    (.error .MalformedKnotVector, self)
  else if (match weights with
      | some w => toSizeT (GetLength w) != mpoints.length
      | none => false) then
    (.error .MalformedWeightVector, self)
  else
    let self := { self with p := morder }
    let self := { self with points := mpoints }
    let n : Int := sizeToInt self.points.length
    let k : Int := n + self.p + 1
    let self := match mknots with
      | some kn => { self with knots := CopyFromMatrix kn }
      | none =>
        let self := { self with knots := Reset (n + self.p + 1) }
        { self with knots := T.ComputeKnotUniformMultipleEnds self.knots self.p }
    let self := match weights with
      | some w => { self with weights := CopyFromMatrix w }
      | none =>
        let self := { self with weights := Reset n }
        { self with weights := FillElem self.weights 1 }
    (.ok (), self)

/-- Outcome of a constructor whose body is a call of `SetupData` on the object under
construction: the constructed object, or the exception that escaped. -/
def construct (r : Except ChException Unit × ChLineNurbs) : Except ChException ChLineNurbs :=
  match r with
  | (.ok _, self) => .ok self
  | (.error e, _) => .error e

/-- The default constructor `ChLineNurbs::ChLineNurbs()`; `self` is the object before the
constructor body runs. -/
def ChLineNurbs_default (T : BasisTools) (self : ChLineNurbs) : Except ChException ChLineNurbs :=
  let mpoints : List ChVector := [(-1, 0, 0), (1, 0, 0)]
  construct (SetupData T self 1 mpoints none none)

/-- The constructor `ChLineNurbs::ChLineNurbs(morder, mpoints, mknots, weights)`; `self` is
the object before the constructor body runs. -/
def ChLineNurbs_data (T : BasisTools) (self : ChLineNurbs) (morder : Int) (mpoints : List ChVector)
    (mknots : Option ChVectorDynamic) (weights : Option ChVectorDynamic) :
    Except ChException ChLineNurbs :=
  construct (SetupData T self 1 mpoints mknots weights)

/-- The copy constructor `ChLineNurbs::ChLineNurbs(const ChLineNurbs& source)`; `self` is the
object before the constructor body runs. -/
def ChLineNurbs_copy (self : ChLineNurbs) (source : ChLineNurbs) : ChLineNurbs :=
  let self := { self with points := source.points }
  let self := { self with p := source.p }
  let self := { self with knots := source.knots }
  let self := { self with weights := source.weights }
  self

/-- `ChLineNurbs::Evaluate(pos, parU, parV, parW)`: the value of `pos` after the call, or
`none` when an access of the loop falls outside `points` or `mR`. -/
def Evaluate (T : BasisTools) (self : ChLineNurbs) (pos : ChVector) (parU parV parW : ℚ) :
    Option ChVector :=
  let mR : ChVectorDynamic := Reset (self.p + 1)
  let mR := T.BasisEvaluate self.p parU self.weights self.knots mR
  let spanU : Int := T.FindSpan self.p parU self.knots
  let pos : ChVector := VNULL
  let uind : Int := spanU - self.p
  (List.range (self.p + 1).toNat).foldlM
    (fun (pos : ChVector) (i : Nat) => do
      let pt ← getInt? self.points (uind + i)
      let r ← getInt? mR i
      pure (pos + r • pt))
    pos

/-- The setup invariants of the data model: order at least 1, at least `p+1` control points,
`n+p+1` knots and `n` weights. -/
def Invariants (self : ChLineNurbs) : Prop :=
  1 ≤ self.p ∧ self.p + 1 ≤ (self.points.length : Int) ∧
  (self.knots.length : Int) = (self.points.length : Int) + self.p + 1 ∧
  self.weights.length = self.points.length

instance (self : ChLineNurbs) : Decidable self.Invariants := by
  unfold Invariants; infer_instance

end ChLineNurbs

/-- The arguments of `SetupData` fit their C++ types: the order, the number of control points
(which `SetupData` stores in an `int`), the sum `n+p+1` it computes, and the lengths that
`GetLength` reports are all `int` values. -/
def Representable (morder : Int) (mpoints : List ChVector)
    (mknots : Option ChVectorDynamic) (weights : Option ChVectorDynamic) : Prop :=
  morder ≤ INT_MAX ∧ (mpoints.length : Int) ≤ INT_MAX ∧
  (mpoints.length : Int) + morder + 1 ≤ INT_MAX ∧
  (∀ kn ∈ mknots, GetLength kn ≤ INT_MAX) ∧ (∀ w ∈ weights, GetLength w ≤ INT_MAX)

instance (morder : Int) (mpoints : List ChVector)
    (mknots : Option ChVectorDynamic) (weights : Option ChVectorDynamic) :
    Decidable (Representable morder mpoints mknots weights) := by
  unfold Representable; infer_instance

end geometry
end chrono

/-! ## Conversions between `int` and `size_t` -/

namespace chrono
namespace geometry
open ChLineNurbs

theorem toSizeT_of_nonneg {x : Int} (h0 : 0 ≤ x) (h1 : x ≤ INT_MAX + 1) :
    (toSizeT x : Int) = x := by
  unfold toSizeT INT_MAX at *
  omega

theorem toSizeT_natCast {n : Nat} (h : (n : Int) ≤ INT_MAX) : toSizeT (n : Int) = n := by
  unfold toSizeT INT_MAX at *
  omega

theorem sizeToInt_of_le {n : Nat} (h : (n : Int) ≤ INT_MAX) : sizeToInt n = n := by
  unfold INT_MAX at h
  unfold sizeToInt
  simp only []
  split_ifs <;> omega

theorem sizeAdd_of_le {a b : Nat} (h : (a : Int) + b ≤ 2 * INT_MAX + 2) :
    sizeAdd a b = a + b := by
  unfold sizeAdd INT_MAX at *
  omega

end geometry
end chrono

/-! ## Setup: validation -/

namespace chrono
namespace geometry
open ChLineNurbs

/-- The second check of `SetupData`, once the first has passed, compares the values. -/
theorem points_check_iff {morder : Int} {n : Nat} (h1 : ¬ morder < 1) (h2 : morder ≤ INT_MAX) :
    n < toSizeT (morder + 1) ↔ (n : Int) < morder + 1 := by
  have := toSizeT_of_nonneg (x := morder + 1) (by omega) (by omega)
  omega

/-- The third check of `SetupData`, once the first has passed, compares the values. -/
theorem knots_check_iff {morder : Int} {n : Nat} {mknots : Option ChVectorDynamic}
    (h1 : ¬ morder < 1) (h2 : morder ≤ INT_MAX) (h3 : (n : Int) ≤ INT_MAX) :
    (∀ kn ∈ mknots, GetLength kn ≤ INT_MAX) →
    ((match mknots with
      | some kn => toSizeT (GetLength kn) != sizeAdd (sizeAdd n (toSizeT morder)) 1
      | none => false) = true ↔
    ∃ kn, mknots = some kn ∧ (kn.length : Int) ≠ (n : Int) + morder + 1) := by
  intro h4
  cases mknots with
  | none => simp
  | some kn =>
    have hk := h4 kn rfl
    have e1 := toSizeT_of_nonneg (x := morder) (by omega) (by omega)
    have e2 : toSizeT (GetLength kn) = kn.length := toSizeT_natCast hk
    have e3 : sizeAdd n (toSizeT morder) = n + toSizeT morder :=
      sizeAdd_of_le (by unfold INT_MAX at *; omega)
    have e4 : sizeAdd (n + toSizeT morder) 1 = n + toSizeT morder + 1 :=
      sizeAdd_of_le (by unfold INT_MAX at *; omega)
    simp only [e2, e3, e4, bne_iff_ne, ne_eq, Option.some.injEq, exists_eq_left']
    omega

/-- The fourth check of `SetupData` compares the values. -/
theorem weights_check_iff {n : Nat} {weights : Option ChVectorDynamic} :
    (∀ w ∈ weights, GetLength w ≤ INT_MAX) →
    ((match weights with
      | some w => toSizeT (GetLength w) != n
      | none => false) = true ↔
    ∃ w, weights = some w ∧ w.length ≠ n) := by
  intro h5
  cases weights with
  | none => simp
  | some w =>
    have e2 : toSizeT (GetLength w) = w.length := toSizeT_natCast (h5 w rfl)
    simp [e2]

end geometry
end chrono

namespace chrono
namespace geometry
open ChLineNurbs

/-- The outcome of `SetupData` is decided by its four checks alone. -/
theorem SetupData_fst (T : BasisTools) (self : ChLineNurbs) (morder : Int)
    (mpoints : List ChVector) (mknots weights : Option ChVectorDynamic) :
    (SetupData T self morder mpoints mknots weights).1 =
      if morder < 1 then .error .InvalidOrder
      else if mpoints.length < toSizeT (morder + 1) then .error .InsufficientControlPoints
      else if (match mknots with
          | some kn =>
            toSizeT (GetLength kn) != sizeAdd (sizeAdd mpoints.length (toSizeT morder)) 1
          | none => false) then .error .MalformedKnotVector
      else if (match weights with
          | some w => toSizeT (GetLength w) != mpoints.length
          | none => false) then .error .MalformedWeightVector
      else .ok () := by
  unfold SetupData
  split_ifs <;> rfl

/-- The outcome of `SetupData` on representable arguments, check by check. -/
theorem SetupData_outcome (T : BasisTools) (self : ChLineNurbs) (morder : Int)
    (mpoints : List ChVector) (mknots weights : Option ChVectorDynamic)
    (hrep : Representable morder mpoints mknots weights) :
    (morder < 1 → (SetupData T self morder mpoints mknots weights).1 = .error .InvalidOrder) ∧
    (1 ≤ morder → (mpoints.length : Int) < morder + 1 →
      (SetupData T self morder mpoints mknots weights).1 = .error .InsufficientControlPoints) ∧
    (1 ≤ morder → morder + 1 ≤ (mpoints.length : Int) →
      (∃ kn, mknots = some kn ∧ (kn.length : Int) ≠ (mpoints.length : Int) + morder + 1) →
      (SetupData T self morder mpoints mknots weights).1 = .error .MalformedKnotVector) ∧
    (1 ≤ morder → morder + 1 ≤ (mpoints.length : Int) →
      (∀ kn, mknots = some kn → (kn.length : Int) = (mpoints.length : Int) + morder + 1) →
      (∃ w, weights = some w ∧ w.length ≠ mpoints.length) →
      (SetupData T self morder mpoints mknots weights).1 = .error .MalformedWeightVector) ∧
    (1 ≤ morder → morder + 1 ≤ (mpoints.length : Int) →
      (∀ kn, mknots = some kn → (kn.length : Int) = (mpoints.length : Int) + morder + 1) →
      (∀ w, weights = some w → w.length = mpoints.length) →
      (SetupData T self morder mpoints mknots weights).1 = .ok ()) := by
  obtain ⟨h1, h2, h3, h4, h5⟩ := hrep
  rw [SetupData_fst]
  split_ifs with c1 c2 c3 c4
  · refine ⟨fun _ => rfl, ?_, ?_, ?_, ?_⟩ <;> intro h <;> omega
  · have c2' := (points_check_iff c1 h1).1 c2
    refine ⟨fun h => absurd h c1, fun _ _ => rfl, ?_, ?_, ?_⟩ <;> intro _ h <;> omega
  · have c2' : ¬ (mpoints.length : Int) < morder + 1 :=
      fun h => c2 ((points_check_iff c1 h1).2 h)
    obtain ⟨kn, e, hne⟩ := (knots_check_iff c1 h1 h2 h4).1 c3
    exact ⟨fun h => absurd h c1, fun _ h => absurd h c2', fun _ _ _ => rfl,
      fun _ _ hk => absurd (hk kn e) hne, fun _ _ hk => absurd (hk kn e) hne⟩
  · have c2' : ¬ (mpoints.length : Int) < morder + 1 :=
      fun h => c2 ((points_check_iff c1 h1).2 h)
    have c3' : ¬ ∃ kn, mknots = some kn ∧
        (kn.length : Int) ≠ (mpoints.length : Int) + morder + 1 :=
      fun h => c3 ((knots_check_iff c1 h1 h2 h4).2 h)
    obtain ⟨w, e, hne⟩ := (weights_check_iff h5).1 c4
    exact ⟨fun h => absurd h c1, fun _ h => absurd h c2', fun _ _ h => absurd h c3',
      fun _ _ _ _ => rfl, fun _ _ _ hw => absurd (hw w e) hne⟩
  · have c2' : ¬ (mpoints.length : Int) < morder + 1 :=
      fun h => c2 ((points_check_iff c1 h1).2 h)
    have c3' : ¬ ∃ kn, mknots = some kn ∧
        (kn.length : Int) ≠ (mpoints.length : Int) + morder + 1 :=
      fun h => c3 ((knots_check_iff c1 h1 h2 h4).2 h)
    have c4' : ¬ ∃ w, weights = some w ∧ w.length ≠ mpoints.length :=
      fun h => c4 ((weights_check_iff h5).2 h)
    exact ⟨fun h => absurd h c1, fun _ h => absurd h c2', fun _ _ h => absurd h c3',
      fun _ _ _ h => absurd h c4', fun _ _ _ _ => rfl⟩

end geometry
end chrono

/-! ## Setup: the state it leaves -/

namespace chrono
namespace geometry
open ChLineNurbs

/-- The state `SetupData` leaves: untouched when a check fails, all four fields written
otherwise. -/
theorem SetupData_snd (T : BasisTools) (self : ChLineNurbs) (morder : Int)
    (mpoints : List ChVector) (mknots weights : Option ChVectorDynamic) :
    (SetupData T self morder mpoints mknots weights).2 =
      if morder < 1 then self
      else if mpoints.length < toSizeT (morder + 1) then self
      else if (match mknots with
          | some kn =>
            toSizeT (GetLength kn) != sizeAdd (sizeAdd mpoints.length (toSizeT morder)) 1
          | none => false) then self
      else if (match weights with
          | some w => toSizeT (GetLength w) != mpoints.length
          | none => false) then self
      else
        { points := mpoints
          p := morder
          knots := mknots.getD (T.ComputeKnotUniformMultipleEnds
            (Reset (sizeToInt mpoints.length + morder + 1)) morder)
          weights := weights.getD (FillElem (Reset (sizeToInt mpoints.length)) 1) } := by
  unfold SetupData
  split_ifs
  · rfl
  · rfl
  · rfl
  · rfl
  · cases mknots with
    | none =>
      cases weights with
      | none =>
        dsimp only
        rw [Option.getD_none, Option.getD_none]
      | some w =>
        dsimp only [CopyFromMatrix]
        rw [Option.getD_none, Option.getD_some]
    | some kn =>
      cases weights with
      | none =>
        dsimp only [CopyFromMatrix]
        rw [Option.getD_some, Option.getD_none]
      | some w =>
        dsimp only [CopyFromMatrix]
        rw [Option.getD_some, Option.getD_some]

/-- A failing `SetupData` has written nothing. -/
theorem SetupData_snd_of_error (T : BasisTools) (self : ChLineNurbs) (morder : Int)
    (mpoints : List ChVector) (mknots weights : Option ChVectorDynamic) (e : ChException)
    (h : (SetupData T self morder mpoints mknots weights).1 = .error e) :
    (SetupData T self morder mpoints mknots weights).2 = self := by
  rw [SetupData_fst] at h
  rw [SetupData_snd]
  split_ifs with c1 c2 c3 c4
  · rfl
  · rfl
  · rfl
  · rfl
  · rw [if_neg c1, if_neg c2, if_neg c3, if_neg c4] at h
    exact absurd h (by simp)

/-- The four fields after a successful `SetupData`. -/
theorem SetupData_snd_of_ok (T : BasisTools) (self : ChLineNurbs) (morder : Int)
    (mpoints : List ChVector) (mknots weights : Option ChVectorDynamic)
    (h : (SetupData T self morder mpoints mknots weights).1 = .ok ()) :
    (SetupData T self morder mpoints mknots weights).2 =
      { points := mpoints
        p := morder
        knots := mknots.getD (T.ComputeKnotUniformMultipleEnds
          (Reset (sizeToInt mpoints.length + morder + 1)) morder)
        weights := weights.getD (FillElem (Reset (sizeToInt mpoints.length)) 1) } := by
  rw [SetupData_fst] at h
  rw [SetupData_snd]
  split_ifs with c1 c2 c3 c4
  · rw [if_pos c1] at h
    exact absurd h (by simp)
  · rw [if_neg c1, if_pos c2] at h
    exact absurd h (by simp)
  · rw [if_neg c1, if_neg c2, if_pos c3] at h
    exact absurd h (by simp)
  · rw [if_neg c1, if_neg c2, if_neg c3, if_pos c4] at h
    exact absurd h (by simp)
  · rfl

/-- The four fields after a successful `SetupData`, one by one. -/
theorem SetupData_ok_fields (T : BasisTools) (self : ChLineNurbs) (morder : Int)
    (mpoints : List ChVector) (mknots weights : Option ChVectorDynamic)
    (h : (SetupData T self morder mpoints mknots weights).1 = .ok ()) :
    (SetupData T self morder mpoints mknots weights).2.points = mpoints ∧
    (SetupData T self morder mpoints mknots weights).2.p = morder ∧
    (∀ kn, mknots = some kn → (SetupData T self morder mpoints mknots weights).2.knots = kn) ∧
    (mknots = none → (SetupData T self morder mpoints mknots weights).2.knots =
      T.ComputeKnotUniformMultipleEnds (Reset (sizeToInt mpoints.length + morder + 1)) morder) ∧
    (∀ w, weights = some w → (SetupData T self morder mpoints mknots weights).2.weights = w) ∧
    (weights = none → (SetupData T self morder mpoints mknots weights).2.weights =
      FillElem (Reset (sizeToInt mpoints.length)) 1) := by
  rw [SetupData_snd_of_ok T self morder mpoints mknots weights h]
  refine ⟨rfl, rfl, ?_, ?_, ?_, ?_⟩
  · intro kn e
    dsimp only
    rw [e, Option.getD_some]
  · intro e
    dsimp only
    rw [e, Option.getD_none]
  · intro w e
    dsimp only
    rw [e, Option.getD_some]
  · intro e
    dsimp only
    rw [e, Option.getD_none]

theorem Reset_length {n : Int} (h : 0 ≤ n) : ((Reset n).length : Int) = n := by
  simp [Reset, Int.toNat_of_nonneg h]

theorem FillElem_length (v : ChVectorDynamic) (x : ℚ) : (FillElem v x).length = v.length := by
  simp [FillElem]

theorem FillElem_Reset (n : Nat) (x : ℚ) : FillElem (Reset (n : Int)) x = List.replicate n x := by
  simp [FillElem, Reset]

end geometry
end chrono

namespace chrono
namespace geometry
open ChLineNurbs

/-- Exactly one of five situations arises in a call of `SetupData` on representable
arguments. -/
theorem SetupData_cases (T : BasisTools) (self : ChLineNurbs) (morder : Int)
    (mpoints : List ChVector) (mknots weights : Option ChVectorDynamic)
    (hrep : Representable morder mpoints mknots weights) :
    (morder < 1 ∧
      (SetupData T self morder mpoints mknots weights).1 = .error .InvalidOrder) ∨
    (1 ≤ morder ∧ (mpoints.length : Int) < morder + 1 ∧
      (SetupData T self morder mpoints mknots weights).1 = .error .InsufficientControlPoints) ∨
    (1 ≤ morder ∧ morder + 1 ≤ (mpoints.length : Int) ∧
      (∃ kn, mknots = some kn ∧ (kn.length : Int) ≠ (mpoints.length : Int) + morder + 1) ∧
      (SetupData T self morder mpoints mknots weights).1 = .error .MalformedKnotVector) ∨
    (1 ≤ morder ∧ morder + 1 ≤ (mpoints.length : Int) ∧
      (∀ kn, mknots = some kn → (kn.length : Int) = (mpoints.length : Int) + morder + 1) ∧
      (∃ w, weights = some w ∧ w.length ≠ mpoints.length) ∧
      (SetupData T self morder mpoints mknots weights).1 = .error .MalformedWeightVector) ∨
    (1 ≤ morder ∧ morder + 1 ≤ (mpoints.length : Int) ∧
      (∀ kn, mknots = some kn → (kn.length : Int) = (mpoints.length : Int) + morder + 1) ∧
      (∀ w, weights = some w → w.length = mpoints.length) ∧
      (SetupData T self morder mpoints mknots weights).1 = .ok ()) := by
  obtain ⟨o1, o2, o3, o4, o5⟩ := SetupData_outcome T self morder mpoints mknots weights hrep
  by_cases c1 : morder < 1
  · exact Or.inl ⟨c1, o1 c1⟩
  have c1' : 1 ≤ morder := by omega
  by_cases c2 : (mpoints.length : Int) < morder + 1
  · exact Or.inr (Or.inl ⟨c1', c2, o2 c1' c2⟩)
  have c2' : morder + 1 ≤ (mpoints.length : Int) := by omega
  by_cases c3 : ∃ kn, mknots = some kn ∧
      (kn.length : Int) ≠ (mpoints.length : Int) + morder + 1
  · exact Or.inr (Or.inr (Or.inl ⟨c1', c2', c3, o3 c1' c2' c3⟩))
  have c3' : ∀ kn, mknots = some kn →
      (kn.length : Int) = (mpoints.length : Int) + morder + 1 := by
    intro kn e
    by_contra hne
    exact c3 ⟨kn, e, hne⟩
  by_cases c4 : ∃ w, weights = some w ∧ w.length ≠ mpoints.length
  · exact Or.inr (Or.inr (Or.inr (Or.inl ⟨c1', c2', c3', c4, o4 c1' c2' c3' c4⟩)))
  have c4' : ∀ w, weights = some w → w.length = mpoints.length := by
    intro w e
    by_contra hne
    exact c4 ⟨w, e, hne⟩
  exact Or.inr (Or.inr (Or.inr (Or.inr ⟨c1', c2', c3', c4', o5 c1' c2' c3' c4'⟩)))

theorem ComputeKnotUniformMultipleEnds_length (knotU : ChVectorDynamic) (p : Int) :
    (basisTools.ComputeKnotUniformMultipleEnds knotU p).length = knotU.length := by
  simp [basisTools, ChBasisToolsBspline.ComputeKnotUniformMultipleEnds]

/-! ## Setup: the claims -/

/-- C3: `SetupData` fails with `InvalidOrder` exactly when `morder < 1`, whatever the number
of points and the lengths of the knot and weight vectors. -/
theorem SetupData_InvalidOrder_iff (T : BasisTools) (self : ChLineNurbs) (morder : Int)
    (mpoints : List ChVector) (mknots weights : Option ChVectorDynamic) :
    (SetupData T self morder mpoints mknots weights).1 = .error .InvalidOrder ↔ morder < 1 := by
  rw [SetupData_fst]
  split_ifs <;> simp_all

/-- C4: on representable arguments `SetupData` fails with `InsufficientControlPoints` exactly
when `morder >= 1` and the number of control points is less than `morder+1`, whatever the
lengths of the knot and weight vectors. -/
theorem SetupData_InsufficientControlPoints_iff (T : BasisTools) (self : ChLineNurbs)
    (morder : Int) (mpoints : List ChVector) (mknots weights : Option ChVectorDynamic)
    (hrep : Representable morder mpoints mknots weights) :
    (SetupData T self morder mpoints mknots weights).1 = .error .InsufficientControlPoints ↔
      1 ≤ morder ∧ (mpoints.length : Int) < morder + 1 := by
  rcases SetupData_cases T self morder mpoints mknots weights hrep with
    ⟨a, h⟩ | ⟨a, b, h⟩ | ⟨a, b, c, h⟩ | ⟨a, b, c, d, h⟩ | ⟨a, b, c, d, h⟩ <;> rw [h] <;>
    simp <;> omega

theorem SetupData_InsufficientControlPoints_iff_witness :
    Representable 3 [(0, 0, 0), (1, 0, 0)] none (some [1]) ∧
    ((SetupData basisTools ⟨[], 0, [], []⟩ 3 [(0, 0, 0), (1, 0, 0)] none (some [1])).1
        = .error .InsufficientControlPoints ↔
      (1 : Int) ≤ 3 ∧ (([(0, 0, 0), (1, 0, 0)] : List ChVector).length : Int) < 3 + 1) :=
  ⟨by decide, SetupData_InsufficientControlPoints_iff basisTools _ 3 _ none (some [1])
    (by decide)⟩

/-- C5: on representable arguments `SetupData` fails with `MalformedKnotVector` exactly when
`morder >= 1`, there are at least `morder+1` control points, a knot vector is supplied and its
length differs from `n+morder+1`; the weight vector plays no part, and an absent knot vector
never causes it. -/
theorem SetupData_MalformedKnotVector_iff (T : BasisTools) (self : ChLineNurbs)
    (morder : Int) (mpoints : List ChVector) (mknots weights : Option ChVectorDynamic)
    (hrep : Representable morder mpoints mknots weights) :
    (SetupData T self morder mpoints mknots weights).1 = .error .MalformedKnotVector ↔
      1 ≤ morder ∧ morder + 1 ≤ (mpoints.length : Int) ∧
      ∃ kn, mknots = some kn ∧ (kn.length : Int) ≠ (mpoints.length : Int) + morder + 1 := by
  rcases SetupData_cases T self morder mpoints mknots weights hrep with
    ⟨a, h⟩ | ⟨a, b, h⟩ | ⟨a, b, c, h⟩ | ⟨a, b, c, d, h⟩ | ⟨a, b, c, d, h⟩ <;> rw [h]
  · exact ⟨fun h' => absurd h' (by simp), fun h' => by omega⟩
  · exact ⟨fun h' => absurd h' (by simp), fun h' => by omega⟩
  · exact ⟨fun _ => ⟨a, b, c⟩, fun _ => rfl⟩
  · refine ⟨fun h' => absurd h' (by simp), ?_⟩
    rintro ⟨_, _, kn, e, hne⟩
    exact absurd (c kn e) hne
  · refine ⟨fun h' => absurd h' (by simp), ?_⟩
    rintro ⟨_, _, kn, e, hne⟩
    exact absurd (c kn e) hne

theorem SetupData_MalformedKnotVector_iff_witness :
    Representable 2 [(0, 0, 0), (1, 0, 0), (2, 0, 0), (3, 0, 0)]
      (some [0, 0, 0, 1, 1, 1]) (some [1]) ∧
    ((SetupData basisTools ⟨[], 0, [], []⟩ 2 [(0, 0, 0), (1, 0, 0), (2, 0, 0), (3, 0, 0)]
        (some [0, 0, 0, 1, 1, 1]) (some [1])).1 = .error .MalformedKnotVector ↔
      (1 : Int) ≤ 2 ∧
      (2 : Int) + 1 ≤ (([(0, 0, 0), (1, 0, 0), (2, 0, 0), (3, 0, 0)] : List ChVector).length : Int) ∧
      ∃ kn, some ([0, 0, 0, 1, 1, 1] : ChVectorDynamic) = some kn ∧ (kn.length : Int) ≠
        (([(0, 0, 0), (1, 0, 0), (2, 0, 0), (3, 0, 0)] : List ChVector).length : Int) + 2 + 1) :=
  ⟨by decide, SetupData_MalformedKnotVector_iff basisTools _ 2 _ _ _ (by decide)⟩

/-- C6: on representable arguments `SetupData` fails with `MalformedWeightVector` exactly when
`morder >= 1`, there are at least `morder+1` control points, the knot vector is absent or has
length `n+morder+1`, and a weight vector is supplied whose length differs from `n`; and it
succeeds exactly when none of the four error conditions holds. -/
theorem SetupData_MalformedWeightVector_iff (T : BasisTools) (self : ChLineNurbs)
    (morder : Int) (mpoints : List ChVector) (mknots weights : Option ChVectorDynamic)
    (hrep : Representable morder mpoints mknots weights) :
    ((SetupData T self morder mpoints mknots weights).1 = .error .MalformedWeightVector ↔
      1 ≤ morder ∧ morder + 1 ≤ (mpoints.length : Int) ∧
      (∀ kn, mknots = some kn → (kn.length : Int) = (mpoints.length : Int) + morder + 1) ∧
      ∃ w, weights = some w ∧ w.length ≠ mpoints.length) ∧
    ((SetupData T self morder mpoints mknots weights).1 = .ok () ↔
      ¬ morder < 1 ∧ ¬ (mpoints.length : Int) < morder + 1 ∧
      (¬ ∃ kn, mknots = some kn ∧ (kn.length : Int) ≠ (mpoints.length : Int) + morder + 1) ∧
      ¬ ∃ w, weights = some w ∧ w.length ≠ mpoints.length) := by
  rcases SetupData_cases T self morder mpoints mknots weights hrep with
    ⟨a, h⟩ | ⟨a, b, h⟩ | ⟨a, b, c, h⟩ | ⟨a, b, c, d, h⟩ | ⟨a, b, c, d, h⟩ <;> rw [h]
  · exact ⟨⟨fun h' => absurd h' (by simp), fun h' => by omega⟩,
      ⟨fun h' => absurd h' (by simp), fun h' => by omega⟩⟩
  · exact ⟨⟨fun h' => absurd h' (by simp), fun h' => by omega⟩,
      ⟨fun h' => absurd h' (by simp), fun h' => by omega⟩⟩
  · obtain ⟨kn, e, hne⟩ := c
    refine ⟨⟨fun h' => absurd h' (by simp), ?_⟩, ⟨fun h' => absurd h' (by simp), ?_⟩⟩
    · rintro ⟨_, _, hk, _⟩
      exact absurd (hk kn e) hne
    · rintro ⟨_, _, hk, _⟩
      exact absurd ⟨kn, e, hne⟩ hk
  · refine ⟨⟨fun _ => ⟨a, b, c, d⟩, fun _ => rfl⟩, ⟨fun h' => absurd h' (by simp), ?_⟩⟩
    rintro ⟨_, _, _, hw⟩
    exact absurd d hw
  · refine ⟨⟨fun h' => absurd h' (by simp), ?_⟩, ⟨fun _ => ⟨by omega, by omega, ?_, ?_⟩,
      fun _ => rfl⟩⟩
    · rintro ⟨_, _, _, w, e, hne⟩
      exact absurd (d w e) hne
    · rintro ⟨kn, e, hne⟩
      exact hne (c kn e)
    · rintro ⟨w, e, hne⟩
      exact hne (d w e)

theorem SetupData_MalformedWeightVector_iff_witness :
    Representable 1 [(0, 0, 0), (1, 0, 0)] none (some [1, 1, 1]) ∧
    (((SetupData basisTools ⟨[], 0, [], []⟩ 1 [(0, 0, 0), (1, 0, 0)] none
        (some [1, 1, 1])).1 = .error .MalformedWeightVector ↔
      (1 : Int) ≤ 1 ∧ (1 : Int) + 1 ≤ (([(0, 0, 0), (1, 0, 0)] : List ChVector).length : Int) ∧
      (∀ kn, (none : Option ChVectorDynamic) = some kn → (kn.length : Int) =
        (([(0, 0, 0), (1, 0, 0)] : List ChVector).length : Int) + 1 + 1) ∧
      ∃ w, some ([1, 1, 1] : ChVectorDynamic) = some w ∧
        w.length ≠ ([(0, 0, 0), (1, 0, 0)] : List ChVector).length) ∧
    ((SetupData basisTools ⟨[], 0, [], []⟩ 1 [(0, 0, 0), (1, 0, 0)] none
        (some [1, 1, 1])).1 = .ok () ↔
      ¬ (1 : Int) < 1 ∧ ¬ (([(0, 0, 0), (1, 0, 0)] : List ChVector).length : Int) < 1 + 1 ∧
      (¬ ∃ kn, (none : Option ChVectorDynamic) = some kn ∧ (kn.length : Int) ≠
        (([(0, 0, 0), (1, 0, 0)] : List ChVector).length : Int) + 1 + 1) ∧
      ¬ ∃ w, some ([1, 1, 1] : ChVectorDynamic) = some w ∧
        w.length ≠ ([(0, 0, 0), (1, 0, 0)] : List ChVector).length)) :=
  ⟨by decide, SetupData_MalformedWeightVector_iff basisTools _ 1 _ _ _ (by decide)⟩

/-- C7: after a successful `SetupData` on representable arguments, with or without explicit
knots and weights, the stored state satisfies the setup invariants: order at least 1, at least
`p+1` control points, `n+p+1` knots and `n` weights.  The knot builder is only assumed to fill
the vector it is given without resizing it. -/
theorem SetupData_establishes_invariants (T : BasisTools) (self : ChLineNurbs)
    (morder : Int) (mpoints : List ChVector) (mknots weights : Option ChVectorDynamic)
    (hrep : Representable morder mpoints mknots weights)
    (hT : ∀ knotU p, (T.ComputeKnotUniformMultipleEnds knotU p).length = knotU.length)
    (hok : (SetupData T self morder mpoints mknots weights).1 = .ok ()) :
    1 ≤ (SetupData T self morder mpoints mknots weights).2.p ∧
    (SetupData T self morder mpoints mknots weights).2.p + 1 ≤
      ((SetupData T self morder mpoints mknots weights).2.points.length : Int) ∧
    ((SetupData T self morder mpoints mknots weights).2.knots.length : Int) =
      ((SetupData T self morder mpoints mknots weights).2.points.length : Int) +
        (SetupData T self morder mpoints mknots weights).2.p + 1 ∧
    (SetupData T self morder mpoints mknots weights).2.weights.length =
      (SetupData T self morder mpoints mknots weights).2.points.length := by
  obtain ⟨f1, f2, f3, f4, f5, f6⟩ :=
    SetupData_ok_fields T self morder mpoints mknots weights hok
  have hn : sizeToInt mpoints.length = mpoints.length := sizeToInt_of_le hrep.2.1
  rw [f1, f2]
  rcases SetupData_cases T self morder mpoints mknots weights hrep with
    ⟨a, h⟩ | ⟨a, b, h⟩ | ⟨a, b, c, h⟩ | ⟨a, b, c, d, h⟩ | ⟨a, b, c, d, h⟩
  · rw [h] at hok; exact absurd hok (by simp)
  · rw [h] at hok; exact absurd hok (by simp)
  · rw [h] at hok; exact absurd hok (by simp)
  · rw [h] at hok; exact absurd hok (by simp)
  · refine ⟨a, b, ?_, ?_⟩
    · cases mknots with
      | some kn =>
        rw [f3 kn rfl]
        exact c kn rfl
      | none =>
        rw [f4 rfl, hT, hn]
        exact Reset_length (by omega)
    · cases weights with
      | some w =>
        rw [f5 w rfl]
        exact d w rfl
      | none =>
        rw [f6 rfl, hn, FillElem_Reset, List.length_replicate]

theorem SetupData_establishes_invariants_witness :
    Representable 2 [(0, 0, 0), (1, 0, 0), (2, 0, 0), (3, 0, 0)] none none ∧
    (1 ≤ (SetupData basisTools ⟨[], 0, [], []⟩ 2
        [(0, 0, 0), (1, 0, 0), (2, 0, 0), (3, 0, 0)] none none).2.p ∧
    (SetupData basisTools ⟨[], 0, [], []⟩ 2
        [(0, 0, 0), (1, 0, 0), (2, 0, 0), (3, 0, 0)] none none).2.p + 1 ≤
      ((SetupData basisTools ⟨[], 0, [], []⟩ 2
        [(0, 0, 0), (1, 0, 0), (2, 0, 0), (3, 0, 0)] none none).2.points.length : Int) ∧
    ((SetupData basisTools ⟨[], 0, [], []⟩ 2
        [(0, 0, 0), (1, 0, 0), (2, 0, 0), (3, 0, 0)] none none).2.knots.length : Int) =
      ((SetupData basisTools ⟨[], 0, [], []⟩ 2
        [(0, 0, 0), (1, 0, 0), (2, 0, 0), (3, 0, 0)] none none).2.points.length : Int) +
        (SetupData basisTools ⟨[], 0, [], []⟩ 2
          [(0, 0, 0), (1, 0, 0), (2, 0, 0), (3, 0, 0)] none none).2.p + 1 ∧
    (SetupData basisTools ⟨[], 0, [], []⟩ 2
        [(0, 0, 0), (1, 0, 0), (2, 0, 0), (3, 0, 0)] none none).2.weights.length =
      (SetupData basisTools ⟨[], 0, [], []⟩ 2
        [(0, 0, 0), (1, 0, 0), (2, 0, 0), (3, 0, 0)] none none).2.points.length) :=
  ⟨by decide, SetupData_establishes_invariants basisTools _ 2 _ none none (by decide)
    ComputeKnotUniformMultipleEnds_length (by decide)⟩

/-- C8: after a successful `SetupData` the stored order is `morder` and the stored control
points are `mpoints`; the stored knot vector is the supplied one when knots are given; the
stored weight vector is the supplied one when weights are given, and otherwise the vector of
`n` entries `1` (for a number of points `n` that fits the `int` it is stored in). -/
theorem SetupData_stores_arguments (T : BasisTools) (self : ChLineNurbs)
    (morder : Int) (mpoints : List ChVector) (mknots weights : Option ChVectorDynamic)
    (hn : (mpoints.length : Int) ≤ INT_MAX)
    (hok : (SetupData T self morder mpoints mknots weights).1 = .ok ()) :
    (SetupData T self morder mpoints mknots weights).2.p = morder ∧
    (SetupData T self morder mpoints mknots weights).2.points = mpoints ∧
    (∀ kn, mknots = some kn → (SetupData T self morder mpoints mknots weights).2.knots = kn) ∧
    (∀ w, weights = some w → (SetupData T self morder mpoints mknots weights).2.weights = w) ∧
    (weights = none → (SetupData T self morder mpoints mknots weights).2.weights =
      List.replicate mpoints.length 1) := by
  obtain ⟨f1, f2, f3, f4, f5, f6⟩ :=
    SetupData_ok_fields T self morder mpoints mknots weights hok
  refine ⟨f2, f1, f3, f5, ?_⟩
  intro e
  rw [f6 e, sizeToInt_of_le hn, FillElem_Reset]

theorem SetupData_stores_arguments_witness :
    (([(0, 0, 0), (1, 0, 0), (2, 0, 0)] : List ChVector).length : Int) ≤ INT_MAX ∧
    ((SetupData basisTools ⟨[], 0, [], []⟩ 2 [(0, 0, 0), (1, 0, 0), (2, 0, 0)]
      (some [0, 0, 0, 1, 1, 1]) none).2.p = 2 ∧
    (SetupData basisTools ⟨[], 0, [], []⟩ 2 [(0, 0, 0), (1, 0, 0), (2, 0, 0)]
      (some [0, 0, 0, 1, 1, 1]) none).2.points = [(0, 0, 0), (1, 0, 0), (2, 0, 0)] ∧
    (∀ kn, some ([0, 0, 0, 1, 1, 1] : ChVectorDynamic) = some kn →
      (SetupData basisTools ⟨[], 0, [], []⟩ 2 [(0, 0, 0), (1, 0, 0), (2, 0, 0)]
        (some [0, 0, 0, 1, 1, 1]) none).2.knots = kn) ∧
    (∀ w, (none : Option ChVectorDynamic) = some w →
      (SetupData basisTools ⟨[], 0, [], []⟩ 2 [(0, 0, 0), (1, 0, 0), (2, 0, 0)]
        (some [0, 0, 0, 1, 1, 1]) none).2.weights = w) ∧
    ((none : Option ChVectorDynamic) = none →
      (SetupData basisTools ⟨[], 0, [], []⟩ 2 [(0, 0, 0), (1, 0, 0), (2, 0, 0)]
        (some [0, 0, 0, 1, 1, 1]) none).2.weights =
      List.replicate ([(0, 0, 0), (1, 0, 0), (2, 0, 0)] : List ChVector).length 1)) :=
  ⟨by decide, SetupData_stores_arguments basisTools _ 2 _ _ none (by decide) (by decide)⟩

/-- C9: setup is atomic.  Whenever `SetupData` fails, with whichever exception, the order, the
control points, the knot vector and the weight vector of the instance are what they were
before the call. -/
theorem SetupData_atomic (T : BasisTools) (self : ChLineNurbs)
    (morder : Int) (mpoints : List ChVector) (mknots weights : Option ChVectorDynamic)
    (e : ChException) (h : (SetupData T self morder mpoints mknots weights).1 = .error e) :
    (SetupData T self morder mpoints mknots weights).2 = self ∧
    (SetupData T self morder mpoints mknots weights).2.p = self.p ∧
    (SetupData T self morder mpoints mknots weights).2.points = self.points ∧
    (SetupData T self morder mpoints mknots weights).2.knots = self.knots ∧
    (SetupData T self morder mpoints mknots weights).2.weights = self.weights := by
  rw [SetupData_snd_of_error T self morder mpoints mknots weights e h]
  exact ⟨rfl, rfl, rfl, rfl, rfl⟩

theorem SetupData_atomic_witness :
    (SetupData basisTools ⟨[(5, 5, 5), (6, 6, 6)], 1, [0, 0, 1, 1], [1, 1]⟩ 2
      [(0, 0, 0), (1, 0, 0), (2, 0, 0)] none (some [1, 1])).1 = .error .MalformedWeightVector ∧
    ((SetupData basisTools ⟨[(5, 5, 5), (6, 6, 6)], 1, [0, 0, 1, 1], [1, 1]⟩ 2
      [(0, 0, 0), (1, 0, 0), (2, 0, 0)] none (some [1, 1])).2 =
        ⟨[(5, 5, 5), (6, 6, 6)], 1, [0, 0, 1, 1], [1, 1]⟩ ∧
    (SetupData basisTools ⟨[(5, 5, 5), (6, 6, 6)], 1, [0, 0, 1, 1], [1, 1]⟩ 2
      [(0, 0, 0), (1, 0, 0), (2, 0, 0)] none (some [1, 1])).2.p = 1 ∧
    (SetupData basisTools ⟨[(5, 5, 5), (6, 6, 6)], 1, [0, 0, 1, 1], [1, 1]⟩ 2
      [(0, 0, 0), (1, 0, 0), (2, 0, 0)] none (some [1, 1])).2.points =
        [(5, 5, 5), (6, 6, 6)] ∧
    (SetupData basisTools ⟨[(5, 5, 5), (6, 6, 6)], 1, [0, 0, 1, 1], [1, 1]⟩ 2
      [(0, 0, 0), (1, 0, 0), (2, 0, 0)] none (some [1, 1])).2.knots = [0, 0, 1, 1] ∧
    (SetupData basisTools ⟨[(5, 5, 5), (6, 6, 6)], 1, [0, 0, 1, 1], [1, 1]⟩ 2
      [(0, 0, 0), (1, 0, 0), (2, 0, 0)] none (some [1, 1])).2.weights = [1, 1]) :=
  ⟨by decide, SetupData_atomic basisTools ⟨[(5, 5, 5), (6, 6, 6)], 1, [0, 0, 1, 1], [1, 1]⟩ 2
    [(0, 0, 0), (1, 0, 0), (2, 0, 0)] none (some [1, 1]) .MalformedWeightVector (by decide)⟩

/-! ## The constructor with data -/

/-- The constructor with data hands the literal order `1` to `SetupData`: its outcome does
not depend on `morder`. -/
theorem ChLineNurbs_data_eq (T : BasisTools) (self : ChLineNurbs) (morder : Int)
    (mpoints : List ChVector) (mknots weights : Option ChVectorDynamic) :
    ChLineNurbs_data T self morder mpoints mknots weights =
      construct (SetupData T self 1 mpoints mknots weights) := rfl

/-- C1 (the code departs from the claim): the constructor with data does not apply the setup
contract with the order it is given.  With order `0` and two points `SetupData` fails with
`InvalidOrder` but the constructor succeeds and stores order `1`; with order `3` and two
points `SetupData` fails with `InsufficientControlPoints` but the constructor succeeds; with
order `2`, four points and `7` knots `SetupData` succeeds but the constructor fails with
`MalformedKnotVector`, and with `6` knots it is the other way round. -/
theorem ChLineNurbs_data_ignores_morder (T : BasisTools) (self : ChLineNurbs) :
    ((SetupData T self 0 [(0, 0, 0), (1, 0, 0)] none none).1 = .error .InvalidOrder ∧
      ∃ c, ChLineNurbs_data T self 0 [(0, 0, 0), (1, 0, 0)] none none = .ok c ∧ c.p = 1) ∧
    ((SetupData T self 3 [(0, 0, 0), (1, 0, 0)] none none).1
        = .error .InsufficientControlPoints ∧
      ∃ c, ChLineNurbs_data T self 3 [(0, 0, 0), (1, 0, 0)] none none = .ok c ∧ c.p = 1) ∧
    ((SetupData T self 2 [(0, 0, 0), (1, 0, 0), (2, 0, 0), (3, 0, 0)]
        (some [0, 0, 0, 1 / 2, 1, 1, 1]) none).1 = .ok () ∧
      ChLineNurbs_data T self 2 [(0, 0, 0), (1, 0, 0), (2, 0, 0), (3, 0, 0)]
        (some [0, 0, 0, 1 / 2, 1, 1, 1]) none = .error .MalformedKnotVector) ∧
    ((SetupData T self 2 [(0, 0, 0), (1, 0, 0), (2, 0, 0), (3, 0, 0)]
        (some [0, 0, 1 / 3, 2 / 3, 1, 1]) none).1 = .error .MalformedKnotVector ∧
      ∃ c, ChLineNurbs_data T self 2 [(0, 0, 0), (1, 0, 0), (2, 0, 0), (3, 0, 0)]
        (some [0, 0, 1 / 3, 2 / 3, 1, 1]) none = .ok c ∧ c.p = 1) := by
  refine ⟨⟨rfl, _, rfl, rfl⟩, ⟨rfl, _, rfl, rfl⟩, ⟨rfl, rfl⟩, ⟨rfl, _, rfl, rfl⟩⟩

/-! ## Evaluation: the loop -/

theorem getInt?_eq_some {α : Type} (l : List α) (i : Int) (d : α) (h0 : 0 ≤ i)
    (h1 : i < l.length) : getInt? l i = some (l.getD i.toNat d) := by
  have h2 : i.toNat < l.length := by omega
  unfold getInt?
  rw [if_neg (by omega), List.getD_eq_getElem?_getD, List.getElem?_eq_getElem h2]
  rfl

theorem getInt?_natCast {α : Type} (l : List α) (i : Nat) : getInt? l (i : Int) = l[i]? := by
  unfold getInt?
  rw [if_neg (by omega)]
  rfl

/-- The loop of `Evaluate` run for `m` rounds from `acc`, when all its accesses fall inside
`points` and `mR`: it adds the `m` products to `acc`. -/
theorem Evaluate_loop (points : List ChVector) (mR : ChVectorDynamic) (uind : Int) (m : Nat)
    (hpt : ∀ i : Nat, i < m → 0 ≤ uind + i ∧ uind + i < points.length)
    (hr : m ≤ mR.length) (acc : ChVector) :
    (List.range m).foldlM
      (fun (pos : ChVector) (i : Nat) => do
        let pt ← getInt? points (uind + i)
        let r ← getInt? mR i
        pure (pos + r • pt))
      acc =
    some (acc + ∑ i in Finset.range m, mR.getD i 0 • points.getD (uind + i).toNat 0) := by
  induction m with
  | zero => simp
  | succ m ih =>
    have ih' := ih (fun i hi => hpt i (by omega)) (by omega)
    obtain ⟨h0, h1⟩ := hpt m (by omega)
    have hm : m < mR.length := by omega
    rw [List.range_succ, List.foldlM_append, ih', Finset.sum_range_succ]
    simp only [Option.some_bind, List.foldlM_cons, List.foldlM_nil, Option.bind_eq_bind,
      getInt?_eq_some points (uind + m) 0 h0 h1, getInt?_natCast,
      List.getElem?_eq_getElem hm, Option.pure_def, List.getD_eq_getElem?_getD,
      Option.getD_some, add_assoc]

/-- `Evaluate` when the span returned by the locator lies in `[p, n-1]` and the basis
evaluator leaves `p+1` values: the loop adds up the `p+1` products, from the zero vector. -/
theorem Evaluate_of_inRange (T : BasisTools) (self : ChLineNurbs) (pos : ChVector)
    (parU parV parW : ℚ)
    (hs : self.p ≤ T.FindSpan self.p parU self.knots ∧
      T.FindSpan self.p parU self.knots ≤ (self.points.length : Int) - 1)
    (hR : ((T.BasisEvaluate self.p parU self.weights self.knots
      (Reset (self.p + 1))).length : Int) = self.p + 1) :
    Evaluate T self pos parU parV parW =
      some (∑ i in Finset.range (self.p + 1).toNat,
        (T.BasisEvaluate self.p parU self.weights self.knots (Reset (self.p + 1))).getD i 0 •
          self.points.getD (T.FindSpan self.p parU self.knots - self.p + i).toNat 0) := by
  unfold Evaluate
  simp only []
  rw [Evaluate_loop self.points _ _ _ (fun i hi => by omega) (by omega) VNULL]
  simp [VNULL]

/-- C2: `Evaluate` returns exactly the sum over `i = 0..p` of `points[s-p+i] * R(i)`, started
from the zero vector, where `s` is `FindSpan(p, u, knots)` and `R` is the vector left by
`BasisEvaluate(p, u, weights, knots, ·)`, both called with the curve's own stored order, knots
and weights.  The helpers are arbitrary; what is used of them is that the span lies in
`[p, n-1]` and that `R` has `p+1` entries, so that the terms of the sum exist. -/
theorem Evaluate_eq_sum (T : BasisTools) (self : ChLineNurbs) (pos : ChVector)
    (parU parV parW : ℚ)
    (hs : self.p ≤ T.FindSpan self.p parU self.knots ∧
      T.FindSpan self.p parU self.knots ≤ (self.points.length : Int) - 1)
    (hR : ((T.BasisEvaluate self.p parU self.weights self.knots
      (Reset (self.p + 1))).length : Int) = self.p + 1) :
    Evaluate T self pos parU parV parW =
      some (∑ i in Finset.range (self.p + 1).toNat,
        (T.BasisEvaluate self.p parU self.weights self.knots (Reset (self.p + 1))).getD i 0 •
          self.points.getD (T.FindSpan self.p parU self.knots - self.p + i).toNat 0) :=
  Evaluate_of_inRange T self pos parU parV parW hs hR

/-! ## The basis functions at the ends of a clamped knot vector -/

open ChBasisToolsBspline in
/-- Outside the indices `s-d, ..., s` the basis functions of degree `d` vanish. -/
theorem BasisN_eq_zero (knotU : ChVectorDynamic) (s : Int) (u : ℚ) (d : Nat) (i : Int)
    (h : s < i ∨ i + d < s) : BasisN knotU s u d i = 0 := by
  induction d generalizing i with
  | zero =>
    have hne : i ≠ s := by omega
    simp [BasisN, hne]
  | succ d ih =>
    have h1 : BasisN knotU s u d i = 0 := ih i (by push_cast at h; omega)
    have h2 : BasisN knotU s u d (i + 1) = 0 := ih (i + 1) (by push_cast at h; omega)
    simp [BasisN, h1, h2]

open ChBasisToolsBspline in
/-- At `u = 0`, in the first span `s = p` of a knot vector whose first `p+1` knots are `0` and
whose next knot is not: among the basis functions of degree `d` only the first one, of index
`p-d`, is non-zero, and it is `1`. -/
theorem BasisN_left (knotU : ChVectorDynamic) (p : Int)
    (h0 : ∀ i : Int, 0 ≤ i → i ≤ p → knotAt knotU i = 0) (h1 : knotAt knotU (p + 1) ≠ 0)
    (d : Nat) (hd : (d : Int) ≤ p) (i : Int) (hi : p - d ≤ i) (hi' : i ≤ p) :
    BasisN knotU p 0 d i = if i = p - d then 1 else 0 := by
  induction d generalizing i with
  | zero => simp [BasisN]
  | succ d ih =>
    push_cast at hd hi ⊢
    have hz : knotAt knotU i = 0 := h0 i (by omega) hi'
    rw [BasisN, hz]
    by_cases hip : i = p
    · have h2 : BasisN knotU p 0 d (i + 1) = 0 := BasisN_eq_zero _ _ _ _ _ (Or.inl (by omega))
      have hne : ¬ i = p - ((d : Int) + 1) := by omega
      rw [h2, if_neg hne]
      simp
    · have h2 := ih (by omega) (i + 1) (by omega) (by omega)
      rw [h2]
      by_cases hid : i = p - ((d : Int) + 1)
      · have e1 : i + 1 = p - d := by omega
        have e2 : i + d + 2 = p + 1 := by omega
        have e3 : knotAt knotU (i + 1) = 0 := h0 (i + 1) (by omega) (by omega)
        rw [if_pos e1, if_pos hid, e2, e3]
        field_simp
      · have e1 : ¬ i + 1 = p - d := by omega
        rw [if_neg e1, if_neg hid]
        simp

open ChBasisToolsBspline in
/-- At `u = 1`, in the last span `s = n-1` of a knot vector whose last `p+1` knots are `1` and
whose knot before them is not: among the basis functions of degree `d` only the last one, of
index `n-1`, is non-zero, and it is `1`. -/
theorem BasisN_right (knotU : ChVectorDynamic) (p n : Int)
    (h0 : ∀ i : Int, n ≤ i → i ≤ n + p → knotAt knotU i = 1) (h1 : knotAt knotU (n - 1) ≠ 1)
    (d : Nat) (hd : (d : Int) ≤ p) (i : Int) (hi : n - 1 - d ≤ i) (hi' : i ≤ n - 1) :
    BasisN knotU (n - 1) 1 d i = if i = n - 1 then 1 else 0 := by
  induction d generalizing i with
  | zero => simp [BasisN]
  | succ d ih =>
    push_cast at hd hi
    have hz : knotAt knotU (i + (d : Int) + 2) = 1 := h0 _ (by omega) (by omega)
    rw [BasisN, hz]
    by_cases hid : i = n - 1 - (d + 1)
    · have h2 : BasisN knotU (n - 1) 1 d i = 0 := BasisN_eq_zero _ _ _ _ _ (Or.inr (by omega))
      have hne : ¬ i = n - 1 := by omega
      simp [h2, hne]
    · have h2 := ih (by omega) i (by omega) (by omega)
      rw [h2]
      by_cases hin : i = n - 1
      · have e3 : knotAt knotU (i + (d : Int) + 1) = 1 := h0 _ (by omega) (by omega)
        have e5 : 1 - knotAt knotU i ≠ 0 := by
          rw [hin]
          exact sub_ne_zero.2 (Ne.symm h1)
        rw [if_pos hin, e3]
        field_simp
      · rw [if_neg hin]
        simp

/-! ## The helpers of the specification: ranges and lengths -/

theorem knotAt_eq_getD (knotU : ChVectorDynamic) (i : Int) (h0 : 0 ≤ i) (h1 : i < knotU.length) :
    knotAt knotU i = knotU.getD i.toNat 0 := by
  rw [knotAt, getInt?_eq_some knotU i 0 h0 h1]
  rfl

theorem knotAt_map_range (k : Nat) (f : Nat → ℚ) (i : Int) (h0 : 0 ≤ i) (h1 : i < k) :
    knotAt ((List.range k).map f) i = f i.toNat := by
  have h2 : i.toNat < k := by omega
  rw [knotAt_eq_getD _ _ h0 (by simpa using h1)]
  simp [List.getD_eq_getElem?_getD, h2]

/-- The span returned by the locator of the specification lies in `[p, n-1]` whenever that
range is not empty. -/
theorem FindSpan_mem (p : Int) (u : ℚ) (knotU : ChVectorDynamic)
    (h : p ≤ (knotU.length : Int) - p - 1 - 1) :
    p ≤ ChBasisToolsBspline.FindSpan p u knotU ∧
      ChBasisToolsBspline.FindSpan p u knotU ≤ (knotU.length : Int) - p - 1 - 1 := by
  unfold ChBasisToolsBspline.FindSpan
  simp only []
  split_ifs
  · omega
  · omega
  · split
    · rename_i j hj
      have hj' := List.find?_some hj
      have hmem := List.mem_of_find?_eq_some hj
      rw [List.mem_range] at hmem
      omega
    · omega

/-- The basis evaluator of the specification leaves `p+1` values. -/
theorem BasisEvaluate_length (p : Int) (u : ℚ) (Weights Knots R : ChVectorDynamic) :
    (ChBasisToolsNurbs.BasisEvaluate p u Weights Knots R).length = (p + 1).toNat := by
  simp [ChBasisToolsNurbs.BasisEvaluate]

/-- With the helpers of the specification, `Evaluate` on a state that satisfies the setup
invariants returns the sum of the `p+1` products, for every parameter. -/
theorem Evaluate_basisTools (self : ChLineNurbs) (hinv : self.Invariants) (pos : ChVector)
    (parU parV parW : ℚ) :
    Evaluate basisTools self pos parU parV parW =
      some (∑ i in Finset.range (self.p + 1).toNat,
        (ChBasisToolsNurbs.BasisEvaluate self.p parU self.weights self.knots
            (Reset (self.p + 1))).getD i 0 •
          self.points.getD
            (ChBasisToolsBspline.FindSpan self.p parU self.knots - self.p + i).toNat 0) := by
  obtain ⟨h1, h2, h3, h4⟩ := hinv
  have hs := FindSpan_mem self.p parU self.knots (by omega)
  exact Evaluate_of_inRange basisTools self pos parU parV parW
    ⟨hs.1, by have := hs.2; simp only [basisTools]; omega⟩
    (by simp only [basisTools, BasisEvaluate_length]; omega)

theorem Evaluate_eq_sum_witness :
    ((1 : Int) ≤ basisTools.FindSpan 1 (1 / 2) [0, 0, 1, 1] ∧
      basisTools.FindSpan 1 (1 / 2) [0, 0, 1, 1] ≤
        (([(0, 0, 0), (2, 0, 0)] : List ChVector).length : Int) - 1) ∧
    ((basisTools.BasisEvaluate 1 (1 / 2) [1, 1] [0, 0, 1, 1] (Reset (1 + 1))).length : Int)
      = 1 + 1 ∧
    Evaluate basisTools ⟨[(0, 0, 0), (2, 0, 0)], 1, [0, 0, 1, 1], [1, 1]⟩ (7, 7, 7)
        (1 / 2) 3 4 =
      some (∑ i in Finset.range ((1 : Int) + 1).toNat,
        (basisTools.BasisEvaluate 1 (1 / 2) [1, 1] [0, 0, 1, 1] (Reset (1 + 1))).getD i 0 •
          ([(0, 0, 0), (2, 0, 0)] : List ChVector).getD
            (basisTools.FindSpan 1 (1 / 2) [0, 0, 1, 1] - 1 + i).toNat 0) :=
  ⟨FindSpan_mem 1 (1 / 2) [0, 0, 1, 1] (by decide),
    congrArg Nat.cast (BasisEvaluate_length 1 (1 / 2) [1, 1] [0, 0, 1, 1] (Reset (1 + 1))),
    Evaluate_eq_sum basisTools ⟨[(0, 0, 0), (2, 0, 0)], 1, [0, 0, 1, 1], [1, 1]⟩ (7, 7, 7)
      (1 / 2) 3 4 (FindSpan_mem 1 (1 / 2) [0, 0, 1, 1] (by decide))
      (congrArg Nat.cast (BasisEvaluate_length 1 (1 / 2) [1, 1] [0, 0, 1, 1] (Reset (1 + 1))))⟩

/-! ## The default knot vector -/

open ChBasisToolsBspline in
theorem defaultKnots_length (p : Int) (n : Nat) (hp : 0 ≤ p) :
    ((ComputeKnotUniformMultipleEnds (Reset ((n : Int) + p + 1)) p).length : Int)
      = (n : Int) + p + 1 := by
  have h := Reset_length (n := (n : Int) + p + 1) (by omega)
  simpa [ComputeKnotUniformMultipleEnds] using h

open ChBasisToolsBspline in
/-- The entries of the default knot vector for `n` control points and order `p`. -/
theorem defaultKnots_at (p : Int) (n : Nat) (hp : 0 ≤ p) (i : Int) (h0 : 0 ≤ i)
    (h1 : i < (n : Int) + p + 1) :
    knotAt (ComputeKnotUniformMultipleEnds (Reset ((n : Int) + p + 1)) p) i =
      if i ≤ p then 0 else if (n : Int) ≤ i then 1
      else ((i - p : Int) : ℚ) / (((n : Int) - p : Int) : ℚ) := by
  have hlen := Reset_length (n := (n : Int) + p + 1) (by omega)
  unfold ComputeKnotUniformMultipleEnds
  simp only []
  rw [knotAt_map_range _ _ i h0 (by omega)]
  have e1 : ((i.toNat : Nat) : Int) = i := Int.toNat_of_nonneg h0
  have e2 : (((Reset ((n : Int) + p + 1)).length : Int)) - p - 1 = (n : Int) := by omega
  rw [e1, e2]

open ChBasisToolsBspline in
theorem defaultKnots_low (p : Int) (n : Nat) (hp : 0 ≤ p) (i : Int) (h0 : 0 ≤ i) (h1 : i ≤ p) :
    knotAt (ComputeKnotUniformMultipleEnds (Reset ((n : Int) + p + 1)) p) i = 0 := by
  rw [defaultKnots_at p n hp i h0 (by omega), if_pos h1]

open ChBasisToolsBspline in
theorem defaultKnots_high (p : Int) (n : Nat) (hp : 0 ≤ p) (hn : p + 1 ≤ (n : Int)) (i : Int)
    (h0 : (n : Int) ≤ i) (h1 : i ≤ (n : Int) + p) :
    knotAt (ComputeKnotUniformMultipleEnds (Reset ((n : Int) + p + 1)) p) i = 1 := by
  rw [defaultKnots_at p n hp i (by omega) (by omega), if_neg (by omega), if_pos h0]

open ChBasisToolsBspline in
/-- The entries of the default knot vector lie in `[0, 1]`, strictly inside for the interior
ones. -/
theorem defaultKnots_interior (p : Int) (n : Nat) (hp : 0 ≤ p) (i : Int) (h0 : p < i)
    (h1 : i < (n : Int)) :
    0 < knotAt (ComputeKnotUniformMultipleEnds (Reset ((n : Int) + p + 1)) p) i ∧
    knotAt (ComputeKnotUniformMultipleEnds (Reset ((n : Int) + p + 1)) p) i < 1 := by
  rw [defaultKnots_at p n hp i (by omega) (by omega), if_neg (by omega), if_neg (by omega)]
  have hd : (0 : ℚ) < (((n : Int) - p : Int) : ℚ) := by exact_mod_cast (by omega : 0 < (n : Int) - p)
  have hi : (0 : ℚ) < ((i - p : Int) : ℚ) := by exact_mod_cast (by omega : 0 < i - p)
  have hlt : ((i - p : Int) : ℚ) < (((n : Int) - p : Int) : ℚ) := by
    exact_mod_cast (by omega : i - p < (n : Int) - p)
  exact ⟨div_pos hi hd, (div_lt_one hd).2 hlt⟩

open ChBasisToolsBspline in
/-- The default knot vector is non-decreasing. -/
theorem defaultKnots_mono (p : Int) (n : Nat) (hp : 0 ≤ p) (hn : p + 1 ≤ (n : Int)) (i j : Int)
    (h0 : 0 ≤ i) (hij : i ≤ j) (h1 : j < (n : Int) + p + 1) :
    knotAt (ComputeKnotUniformMultipleEnds (Reset ((n : Int) + p + 1)) p) i ≤
    knotAt (ComputeKnotUniformMultipleEnds (Reset ((n : Int) + p + 1)) p) j := by
  by_cases ci : i ≤ p
  · rw [defaultKnots_low p n hp i h0 ci]
    by_cases cj : j ≤ p
    · rw [defaultKnots_low p n hp j (by omega) cj]
    · by_cases cj' : (n : Int) ≤ j
      · rw [defaultKnots_high p n hp hn j cj' (by omega)]
        norm_num
      · exact le_of_lt (defaultKnots_interior p n hp j (by omega) (by omega)).1
  · by_cases cj' : (n : Int) ≤ j
    · rw [defaultKnots_high p n hp hn j cj' (by omega)]
      by_cases ci' : (n : Int) ≤ i
      · rw [defaultKnots_high p n hp hn i ci' (by omega)]
      · exact le_of_lt (defaultKnots_interior p n hp i (by omega) (by omega)).2
    · rw [defaultKnots_at p n hp i h0 (by omega), if_neg ci, if_neg (by omega),
        defaultKnots_at p n hp j (by omega) h1, if_neg (by omega), if_neg cj']
      have hd : (0 : ℚ) < (((n : Int) - p : Int) : ℚ) := by
        exact_mod_cast (by omega : 0 < (n : Int) - p)
      have hle : ((i - p : Int) : ℚ) ≤ ((j - p : Int) : ℚ) := by
        exact_mod_cast (by omega : i - p ≤ j - p)
      exact div_le_div_of_nonneg_right hle (le_of_lt hd)

/-! ## The rational basis values -/

theorem list_sum_map_range (f : Nat → ℚ) (m : Nat) :
    ((List.range m).map f).sum = ∑ i in Finset.range m, f i := by
  induction m with
  | zero => simp
  | succ m ih => rw [List.range_succ, List.map_append, List.sum_append, ih,
      Finset.sum_range_succ]; simp

open ChBasisToolsBspline in
/-- Entry `j` of the vector left by the basis evaluator of the specification. -/
theorem BasisEvaluate_getD (p : Int) (u : ℚ) (Weights Knots R : ChVectorDynamic) (j : Nat)
    (hj : j < (p + 1).toNat) :
    (ChBasisToolsNurbs.BasisEvaluate p u Weights Knots R).getD j 0 =
      BasisN Knots (FindSpan p u Knots) u p.toNat (FindSpan p u Knots - p + j) *
          knotAt Weights (FindSpan p u Knots - p + j) /
        ∑ k in Finset.range (p + 1).toNat,
          BasisN Knots (FindSpan p u Knots) u p.toNat (FindSpan p u Knots - p + k) *
            knotAt Weights (FindSpan p u Knots - p + k) := by
  unfold ChBasisToolsNurbs.BasisEvaluate
  simp only [list_sum_map_range]
  simp [List.getD_eq_getElem?_getD, hj]

open ChBasisToolsBspline in
/-- When a single one of the `p+1` basis values is `1`, the others are `0`, and the weight of
that one is not zero, `Evaluate` returns the control point of that basis function. -/
theorem Evaluate_of_single (self : ChLineNurbs) (hinv : self.Invariants) (pos : ChVector)
    (parU parV parW : ℚ) (j0 : Nat) (hj0 : (j0 : Int) ≤ self.p)
    (hN : ∀ j : Nat, (j : Int) ≤ self.p →
      BasisN self.knots (FindSpan self.p parU self.knots) parU self.p.toNat
        (FindSpan self.p parU self.knots - self.p + j) = if j = j0 then 1 else 0)
    (hw : knotAt self.weights (FindSpan self.p parU self.knots - self.p + j0) ≠ 0) :
    Evaluate basisTools self pos parU parV parW =
      some (self.points.getD (FindSpan self.p parU self.knots - self.p + j0).toNat 0) := by
  have hp : 1 ≤ self.p := hinv.1
  have hj0' : j0 < (self.p + 1).toNat := by omega
  have hden : ∑ k in Finset.range (self.p + 1).toNat,
      BasisN self.knots (FindSpan self.p parU self.knots) parU self.p.toNat
          (FindSpan self.p parU self.knots - self.p + k) *
        knotAt self.weights (FindSpan self.p parU self.knots - self.p + k) =
      knotAt self.weights (FindSpan self.p parU self.knots - self.p + j0) := by
    rw [Finset.sum_eq_single j0]
    · rw [hN j0 hj0, if_pos rfl, one_mul]
    · intro k hk hne
      rw [Finset.mem_range] at hk
      rw [hN k (by omega), if_neg hne, zero_mul]
    · intro h
      exact absurd (Finset.mem_range.2 hj0') h
  rw [Evaluate_basisTools self hinv, Finset.sum_eq_single j0]
  · rw [BasisEvaluate_getD _ _ _ _ _ _ hj0', hden, hN j0 hj0, if_pos rfl, one_mul,
      div_self hw, one_smul]
  · intro k hk hne
    rw [Finset.mem_range] at hk
    rw [BasisEvaluate_getD _ _ _ _ _ _ hk, hN k (by omega), if_neg hne, zero_mul, zero_div,
      zero_smul]
  · intro h
    exact absurd (Finset.mem_range.2 hj0') h

/-! ## The span locator at the ends of the domain -/

open ChBasisToolsBspline in
/-- At and beyond the upper boundary the locator returns the last valid span `n-1`. -/
theorem FindSpan_upper (p : Int) (u : ℚ) (knotU : ChVectorDynamic)
    (h : knotAt knotU ((knotU.length : Int) - p - 1) ≤ u) :
    FindSpan p u knotU = (knotU.length : Int) - p - 1 - 1 := by
  unfold FindSpan
  simp only []
  rw [if_pos h]

open ChBasisToolsBspline in
/-- Below the upper boundary, a parameter of the first span `[knot[p], knot[p+1])` is located
in the span `p`. -/
theorem FindSpan_first (p : Int) (u : ℚ) (knotU : ChVectorDynamic)
    (hn : p + 1 ≤ (knotU.length : Int) - p - 1)
    (h1 : u < knotAt knotU ((knotU.length : Int) - p - 1))
    (h2 : knotAt knotU p ≤ u) (h3 : u < knotAt knotU (p + 1)) :
    FindSpan p u knotU = p := by
  unfold FindSpan
  simp only []
  rw [if_neg (not_le.2 h1), if_neg (not_lt.2 h2)]
  obtain ⟨m, hm⟩ : ∃ m : Nat, ((knotU.length : Int) - p - 1 - p).toNat = m + 1 :=
    ⟨((knotU.length : Int) - p - 1 - p).toNat - 1, by omega⟩
  rw [hm, List.range_succ_eq_map, List.find?_cons_of_pos]
  · simp
  · simpa using ⟨h2, h3⟩

open ChBasisToolsBspline in
/-- Below the domain the locator returns the first valid span `p`. -/
theorem FindSpan_lower (p : Int) (u : ℚ) (knotU : ChVectorDynamic)
    (h1 : u < knotAt knotU ((knotU.length : Int) - p - 1)) (h2 : u < knotAt knotU p) :
    FindSpan p u knotU = p := by
  unfold FindSpan
  simp only []
  rw [if_neg (not_le.2 h1), if_pos h2]

/-! ## Setup with default knots and weights -/

/-- With an order `p >= 1`, at least `p+1` control points and neither knots nor weights,
`SetupData` succeeds and stores the default knot vector and `n` weights `1`. -/
theorem SetupData_default (T : BasisTools) (self : ChLineNurbs) (p : Int)
    (mpoints : List ChVector) (hp : 1 ≤ p) (hn : p + 1 ≤ (mpoints.length : Int))
    (hrep : Representable p mpoints none none) :
    (SetupData T self p mpoints none none).1 = .ok () ∧
    (SetupData T self p mpoints none none).2 =
      { points := mpoints
        p := p
        knots := T.ComputeKnotUniformMultipleEnds (Reset ((mpoints.length : Int) + p + 1)) p
        weights := List.replicate mpoints.length 1 } := by
  have hok : (SetupData T self p mpoints none none).1 = .ok () :=
    (SetupData_outcome T self p mpoints none none hrep).2.2.2.2 hp hn
      (fun kn e => by simp at e) (fun w e => by simp at e)
  obtain ⟨f1, f2, f3, f4, f5, f6⟩ := SetupData_ok_fields T self p mpoints none none hok
  refine ⟨hok, ?_⟩
  have e4 := f4 rfl
  have e6 := f6 rfl
  rw [sizeToInt_of_le hrep.2.1] at e4 e6
  rw [FillElem_Reset] at e6
  cases hs : (SetupData T self p mpoints none none).2 with
  | mk a b c d =>
    rw [hs] at f1 f2 e4 e6
    dsimp only at f1 f2 e4 e6
    rw [f1, f2, e4, e6]

theorem knotAt_replicate_one (n : Nat) (i : Int) (h0 : 0 ≤ i) (h1 : i < (n : Int)) :
    knotAt (List.replicate n 1) i = 1 := by
  have h2 : i.toNat < n := by omega
  rw [knotAt_eq_getD _ _ h0 (by simpa using h1)]
  simp [List.getD_eq_getElem?_getD, h2]

/-! ## Endpoint interpolation -/

open ChBasisToolsBspline in
/-- The state stored by a default setup satisfies the setup invariants. -/
theorem defaultState_invariants (p : Int) (mpoints : List ChVector) (hp : 1 ≤ p)
    (hn : p + 1 ≤ (mpoints.length : Int)) :
    ChLineNurbs.Invariants
      { points := mpoints
        p := p
        knots := ComputeKnotUniformMultipleEnds (Reset ((mpoints.length : Int) + p + 1)) p
        weights := List.replicate mpoints.length 1 } :=
  ⟨hp, hn, defaultKnots_length p mpoints.length (by omega), by simp⟩

open ChBasisToolsBspline in
/-- The curve with default knots and weights at the domain minimum `u = 0`. -/
theorem Evaluate_default_zero (p : Int) (mpoints : List ChVector) (hp : 1 ≤ p)
    (hn : p + 1 ≤ (mpoints.length : Int)) (pos : ChVector) (parV parW : ℚ) :
    Evaluate basisTools
      { points := mpoints
        p := p
        knots := ComputeKnotUniformMultipleEnds (Reset ((mpoints.length : Int) + p + 1)) p
        weights := List.replicate mpoints.length 1 } pos 0 parV parW = mpoints.head? := by
  have hp0 : 0 ≤ p := by omega
  have hlen := defaultKnots_length p mpoints.length hp0
  have hKn : knotAt (ComputeKnotUniformMultipleEnds
      (Reset ((mpoints.length : Int) + p + 1)) p) (mpoints.length : Int) = 1 :=
    defaultKnots_high p _ hp0 hn _ (le_refl _) (by omega)
  have hKp : knotAt (ComputeKnotUniformMultipleEnds
      (Reset ((mpoints.length : Int) + p + 1)) p) p = 0 :=
    defaultKnots_low p _ hp0 _ hp0 (le_refl _)
  have hK1 : 0 < knotAt (ComputeKnotUniformMultipleEnds
      (Reset ((mpoints.length : Int) + p + 1)) p) (p + 1) := by
    by_cases c : p + 1 < (mpoints.length : Int)
    · exact (defaultKnots_interior p _ hp0 _ (by omega) c).1
    · rw [defaultKnots_high p _ hp0 hn _ (by omega) (by omega)]
      norm_num
  have hs : FindSpan p 0 (ComputeKnotUniformMultipleEnds
      (Reset ((mpoints.length : Int) + p + 1)) p) = p := by
    apply FindSpan_first
    · omega
    · have e : ((ComputeKnotUniformMultipleEnds
          (Reset ((mpoints.length : Int) + p + 1)) p).length : Int) - p - 1
          = (mpoints.length : Int) := by omega
      rw [e, hKn]
      norm_num
    · rw [hKp]
    · exact hK1
  rw [Evaluate_of_single _ (defaultState_invariants p mpoints hp hn) pos 0 parV parW 0
    (by simpa using hp0)]
  · simp only [hs]
    have e : (p - p + ((0 : Nat) : Int)).toNat = 0 := by simp
    rw [e, List.head?_eq_getElem?, List.getD_eq_getElem?_getD,
      List.getElem?_eq_getElem (by omega : 0 < mpoints.length)]
    rfl
  · intro j hj
    simp only [hs]
    have e : p - p + (j : Int) = (j : Int) := by omega
    rw [e, BasisN_left _ p (fun i h0 h1 => defaultKnots_low p _ hp0 i h0 h1) (ne_of_gt hK1)
      p.toNat (by omega) (j : Int) (by omega) hj]
    by_cases hj0 : j = 0
    · rw [if_pos hj0, if_pos (by omega)]
    · rw [if_neg hj0, if_neg (by omega)]
  · simp only [hs]
    rw [knotAt_replicate_one _ _ (by omega) (by omega)]
    norm_num

open ChBasisToolsBspline in
/-- The curve with default knots and weights at the domain maximum `u = 1`. -/
theorem Evaluate_default_one (p : Int) (mpoints : List ChVector) (hp : 1 ≤ p)
    (hn : p + 1 ≤ (mpoints.length : Int)) (pos : ChVector) (parV parW : ℚ) :
    FindSpan p 1 (ComputeKnotUniformMultipleEnds
      (Reset ((mpoints.length : Int) + p + 1)) p) = (mpoints.length : Int) - 1 ∧
    Evaluate basisTools
      { points := mpoints
        p := p
        knots := ComputeKnotUniformMultipleEnds (Reset ((mpoints.length : Int) + p + 1)) p
        weights := List.replicate mpoints.length 1 } pos 1 parV parW = mpoints.getLast? := by
  have hp0 : 0 ≤ p := by omega
  have hlen := defaultKnots_length p mpoints.length hp0
  have e : ((ComputeKnotUniformMultipleEnds
      (Reset ((mpoints.length : Int) + p + 1)) p).length : Int) - p - 1
      = (mpoints.length : Int) := by omega
  have hKn : knotAt (ComputeKnotUniformMultipleEnds
      (Reset ((mpoints.length : Int) + p + 1)) p) (mpoints.length : Int) = 1 :=
    defaultKnots_high p _ hp0 hn _ (le_refl _) (by omega)
  have hK1 : knotAt (ComputeKnotUniformMultipleEnds
      (Reset ((mpoints.length : Int) + p + 1)) p) ((mpoints.length : Int) - 1) ≠ 1 := by
    by_cases c : p < (mpoints.length : Int) - 1
    · exact ne_of_lt (defaultKnots_interior p _ hp0 _ c (by omega)).2
    · rw [defaultKnots_low p _ hp0 _ (by omega) (by omega)]
      norm_num
  have hs : FindSpan p 1 (ComputeKnotUniformMultipleEnds
      (Reset ((mpoints.length : Int) + p + 1)) p) = (mpoints.length : Int) - 1 := by
    rw [FindSpan_upper _ _ _ (by rw [e, hKn]), e]
  refine ⟨hs, ?_⟩
  rw [Evaluate_of_single _ (defaultState_invariants p mpoints hp hn) pos 1 parV parW p.toNat
    (by simp only []; omega)]
  · simp only [hs]
    have e2 : ((mpoints.length : Int) - 1 - p + ((p.toNat : Nat) : Int)).toNat
        = mpoints.length - 1 := by omega
    rw [e2, List.getLast?_eq_getElem?, List.getD_eq_getElem?_getD,
      List.getElem?_eq_getElem (by omega : mpoints.length - 1 < mpoints.length)]
    rfl
  · intro j hj
    simp only [hs]
    rw [BasisN_right _ p (mpoints.length : Int)
      (fun i h0 h1 => defaultKnots_high p _ hp0 hn i h0 h1) hK1
      p.toNat (by omega) _ (by omega) (by simp only [] at hj; omega)]
    simp only [] at hj
    by_cases hj0 : j = p.toNat
    · rw [if_pos hj0, if_pos (by omega)]
    · rw [if_neg hj0, if_neg (by omega)]
  · simp only [hs]
    rw [knotAt_replicate_one _ _ (by omega) (by omega)]
    norm_num

theorem getElem?_eq_some_knotAt (knotU : ChVectorDynamic) (i : Nat) (h : i < knotU.length) :
    knotU[i]? = some (knotAt knotU (i : Int)) := by
  rw [knotAt, getInt?_natCast, List.getElem?_eq_getElem h]
  rfl

theorem getElem_eq_knotAt (knotU : ChVectorDynamic) (i : Nat) (h : i < knotU.length) :
    knotU[i] = knotAt knotU (i : Int) := by
  have := getElem?_eq_some_knotAt knotU i h
  rw [List.getElem?_eq_getElem h] at this
  exact Option.some.inj this

/-- C10: endpoint interpolation.  For every order `p >= 1` and every list of `n >= p+1`
control points set up with default knots and default weights (the sizes fitting an `int`),
the setup succeeds, the domain is `[knots[p], knots[n]] = [0, 1]`, `Evaluate` at `u = 0`
returns the first control point and at `u = 1` the last control point, exactly, and the span
locator returns `n-1` at the upper boundary.  The helpers are the ones of the
specification. -/
theorem endpoint_interpolation (self : ChLineNurbs) (p : Int) (mpoints : List ChVector)
    (pos : ChVector) (parV parW : ℚ) (hp : 1 ≤ p) (hn : p + 1 ≤ (mpoints.length : Int))
    (hrep : Representable p mpoints none none) :
    (SetupData basisTools self p mpoints none none).1 = .ok () ∧
    mpoints ≠ [] ∧
    knotAt (SetupData basisTools self p mpoints none none).2.knots
      (SetupData basisTools self p mpoints none none).2.p = 0 ∧
    knotAt (SetupData basisTools self p mpoints none none).2.knots
      ((SetupData basisTools self p mpoints none none).2.points.length : Int) = 1 ∧
    Evaluate basisTools (SetupData basisTools self p mpoints none none).2 pos 0 parV parW
      = mpoints.head? ∧
    Evaluate basisTools (SetupData basisTools self p mpoints none none).2 pos 1 parV parW
      = mpoints.getLast? ∧
    basisTools.FindSpan (SetupData basisTools self p mpoints none none).2.p 1
      (SetupData basisTools self p mpoints none none).2.knots = (mpoints.length : Int) - 1 := by
  obtain ⟨hok, hst⟩ := SetupData_default basisTools self p mpoints hp hn hrep
  rw [hst]
  have hne : mpoints ≠ [] := by
    intro h
    rw [h] at hn
    simp at hn
    omega
  exact ⟨hok, hne, defaultKnots_low p mpoints.length (by omega) p (by omega) (le_refl _),
    defaultKnots_high p mpoints.length (by omega) hn mpoints.length (le_refl _) (by omega),
    Evaluate_default_zero p mpoints hp hn pos parV parW,
    (Evaluate_default_one p mpoints hp hn pos parV parW).2,
    (Evaluate_default_one p mpoints hp hn pos parV parW).1⟩

theorem endpoint_interpolation_witness :
    (1 : Int) ≤ 2 ∧
    (2 : Int) + 1 ≤ (([(0, 0, 0), (1, 2, 0), (2, 2, 1), (3, 0, 5)] : List ChVector).length : Int) ∧
    Representable 2 [(0, 0, 0), (1, 2, 0), (2, 2, 1), (3, 0, 5)] none none ∧
    ((SetupData basisTools ⟨[], 0, [], []⟩ 2
      [(0, 0, 0), (1, 2, 0), (2, 2, 1), (3, 0, 5)] none none).1 = .ok () ∧
    ([(0, 0, 0), (1, 2, 0), (2, 2, 1), (3, 0, 5)] : List ChVector) ≠ [] ∧
    knotAt (SetupData basisTools ⟨[], 0, [], []⟩ 2
      [(0, 0, 0), (1, 2, 0), (2, 2, 1), (3, 0, 5)] none none).2.knots
      (SetupData basisTools ⟨[], 0, [], []⟩ 2
        [(0, 0, 0), (1, 2, 0), (2, 2, 1), (3, 0, 5)] none none).2.p = 0 ∧
    knotAt (SetupData basisTools ⟨[], 0, [], []⟩ 2
      [(0, 0, 0), (1, 2, 0), (2, 2, 1), (3, 0, 5)] none none).2.knots
      ((SetupData basisTools ⟨[], 0, [], []⟩ 2
        [(0, 0, 0), (1, 2, 0), (2, 2, 1), (3, 0, 5)] none none).2.points.length : Int) = 1 ∧
    Evaluate basisTools (SetupData basisTools ⟨[], 0, [], []⟩ 2
      [(0, 0, 0), (1, 2, 0), (2, 2, 1), (3, 0, 5)] none none).2 (9, 9, 9) 0 7 8
      = ([(0, 0, 0), (1, 2, 0), (2, 2, 1), (3, 0, 5)] : List ChVector).head? ∧
    Evaluate basisTools (SetupData basisTools ⟨[], 0, [], []⟩ 2
      [(0, 0, 0), (1, 2, 0), (2, 2, 1), (3, 0, 5)] none none).2 (9, 9, 9) 1 7 8
      = ([(0, 0, 0), (1, 2, 0), (2, 2, 1), (3, 0, 5)] : List ChVector).getLast? ∧
    basisTools.FindSpan (SetupData basisTools ⟨[], 0, [], []⟩ 2
      [(0, 0, 0), (1, 2, 0), (2, 2, 1), (3, 0, 5)] none none).2.p 1
      (SetupData basisTools ⟨[], 0, [], []⟩ 2
        [(0, 0, 0), (1, 2, 0), (2, 2, 1), (3, 0, 5)] none none).2.knots
      = (([(0, 0, 0), (1, 2, 0), (2, 2, 1), (3, 0, 5)] : List ChVector).length : Int) - 1) :=
  ⟨by decide, by decide, by decide,
    endpoint_interpolation ⟨[], 0, [], []⟩ 2 [(0, 0, 0), (1, 2, 0), (2, 2, 1), (3, 0, 5)]
      (9, 9, 9) 7 8 (by decide) (by decide) (by decide)⟩

/-- C12: for every order `p >= 1` and every list of `n >= p+1` control points (the sizes
fitting an `int`), `SetupData` with no knots and no weights succeeds, and the stored knot
vector has length `n+p+1`, is non-decreasing, has its first `p+1` entries equal to `0` and
its last `p+1` entries equal to `1`.  The knot builder is the one of the specification. -/
theorem SetupData_default_knots (self : ChLineNurbs) (p : Int) (mpoints : List ChVector)
    (hp : 1 ≤ p) (hn : p + 1 ≤ (mpoints.length : Int))
    (hrep : Representable p mpoints none none) :
    (SetupData basisTools self p mpoints none none).1 = .ok () ∧
    ((SetupData basisTools self p mpoints none none).2.knots.length : Int)
      = (mpoints.length : Int) + p + 1 ∧
    List.Pairwise (· ≤ ·) (SetupData basisTools self p mpoints none none).2.knots ∧
    (∀ i : Nat, (i : Int) ≤ p →
      (SetupData basisTools self p mpoints none none).2.knots[i]? = some 0) ∧
    (∀ i : Nat, (mpoints.length : Int) ≤ i → (i : Int) ≤ (mpoints.length : Int) + p →
      (SetupData basisTools self p mpoints none none).2.knots[i]? = some 1) := by
  obtain ⟨hok, hst⟩ := SetupData_default basisTools self p mpoints hp hn hrep
  rw [hst]
  have hp0 : 0 ≤ p := by omega
  have hlen := defaultKnots_length p mpoints.length hp0
  refine ⟨hok, hlen, ?_, ?_, ?_⟩
  · rw [List.pairwise_iff_getElem]
    intro i j hi hj hij
    simp only [basisTools] at hi hj ⊢
    rw [getElem_eq_knotAt _ i hi, getElem_eq_knotAt _ j hj]
    exact defaultKnots_mono p _ hp0 hn _ _ (by omega) (by omega) (by omega)
  · intro i hi
    simp only [basisTools]
    rw [getElem?_eq_some_knotAt _ i (by omega), defaultKnots_low p _ hp0 _ (by omega) hi]
  · intro i hi hi'
    simp only [basisTools]
    rw [getElem?_eq_some_knotAt _ i (by omega), defaultKnots_high p _ hp0 hn _ hi hi']

theorem SetupData_default_knots_witness :
    (1 : Int) ≤ 2 ∧
    (2 : Int) + 1 ≤ (([(0, 0, 0), (1, 2, 0), (2, 2, 1), (3, 0, 5)] : List ChVector).length : Int) ∧
    Representable 2 [(0, 0, 0), (1, 2, 0), (2, 2, 1), (3, 0, 5)] none none ∧
    ((SetupData basisTools ⟨[], 0, [], []⟩ 2
      [(0, 0, 0), (1, 2, 0), (2, 2, 1), (3, 0, 5)] none none).1 = .ok () ∧
    ((SetupData basisTools ⟨[], 0, [], []⟩ 2
      [(0, 0, 0), (1, 2, 0), (2, 2, 1), (3, 0, 5)] none none).2.knots.length : Int)
      = (([(0, 0, 0), (1, 2, 0), (2, 2, 1), (3, 0, 5)] : List ChVector).length : Int) + 2 + 1 ∧
    List.Pairwise (· ≤ ·) (SetupData basisTools ⟨[], 0, [], []⟩ 2
      [(0, 0, 0), (1, 2, 0), (2, 2, 1), (3, 0, 5)] none none).2.knots ∧
    (∀ i : Nat, (i : Int) ≤ 2 →
      (SetupData basisTools ⟨[], 0, [], []⟩ 2
        [(0, 0, 0), (1, 2, 0), (2, 2, 1), (3, 0, 5)] none none).2.knots[i]? = some 0) ∧
    (∀ i : Nat,
      (([(0, 0, 0), (1, 2, 0), (2, 2, 1), (3, 0, 5)] : List ChVector).length : Int) ≤ i →
      (i : Int) ≤
        (([(0, 0, 0), (1, 2, 0), (2, 2, 1), (3, 0, 5)] : List ChVector).length : Int) + 2 →
      (SetupData basisTools ⟨[], 0, [], []⟩ 2
        [(0, 0, 0), (1, 2, 0), (2, 2, 1), (3, 0, 5)] none none).2.knots[i]? = some 1)) :=
  ⟨by decide, by decide, by decide,
    SetupData_default_knots ⟨[], 0, [], []⟩ 2 [(0, 0, 0), (1, 2, 0), (2, 2, 1), (3, 0, 5)]
      (by decide) (by decide) (by decide)⟩

/-! ## The linear case -/

open ChBasisToolsBspline in
/-- The knots `[0, 0, 1, 1]`, read with an `int` index. -/
theorem knotAt_linear :
    knotAt [0, 0, 1, 1] 0 = 0 ∧ knotAt [0, 0, 1, 1] 1 = 0 ∧ knotAt [0, 0, 1, 1] 2 = 1 ∧
    knotAt [0, 0, 1, 1] 3 = 1 := by
  refine ⟨?_, ?_, ?_, ?_⟩ <;> simp [knotAt, getInt?]

open ChBasisToolsBspline in
/-- On the knots `[0, 0, 1, 1]` with order `1` the only valid span is `1`, for every
parameter. -/
theorem FindSpan_linear (u : ℚ) : FindSpan 1 u [0, 0, 1, 1] = 1 := by
  obtain ⟨k0, k1, k2, k3⟩ := knotAt_linear
  have e : ((([0, 0, 1, 1] : ChVectorDynamic).length : Int)) - 1 - 1 = 2 := by simp
  by_cases h1 : 1 ≤ u
  · rw [FindSpan_upper 1 u _ (by rw [e, k2]; exact h1), e]
    norm_num
  · by_cases h2 : u < 0
    · exact FindSpan_lower 1 u _ (by rw [e, k2]; exact not_le.1 h1) (by rw [k1]; exact h2)
    · exact FindSpan_first 1 u _ (by rw [e]; norm_num) (by rw [e, k2]; exact not_le.1 h1)
        (by rw [k1]; exact not_lt.1 h2) (by rw [show (1 : Int) + 1 = 2 by norm_num, k2]; exact not_le.1 h1)

open ChBasisToolsBspline in
/-- The two basis values of degree `1` on the knots `[0, 0, 1, 1]`. -/
theorem BasisN_linear (u : ℚ) :
    BasisN [0, 0, 1, 1] 1 u 1 0 = 1 - u ∧ BasisN [0, 0, 1, 1] 1 u 1 1 = u := by
  obtain ⟨k0, k1, k2, k3⟩ := knotAt_linear
  constructor
  · simp [BasisN, k0, k1, k2]
  · simp [BasisN, k1, k2, k3]

open ChBasisToolsBspline in
/-- The curve of order `1` on the knots `[0, 0, 1, 1]` with weights `[1, 1]` is the segment
from `P0` to `P1`, for every parameter. -/
theorem Evaluate_linear (P0 P1 pos : ChVector) (parU parV parW : ℚ) :
    Evaluate basisTools ⟨[P0, P1], 1, [0, 0, 1, 1], [1, 1]⟩ pos parU parV parW =
      some ((1 - parU) • P0 + parU • P1) := by
  have hinv : ChLineNurbs.Invariants ⟨[P0, P1], 1, [0, 0, 1, 1], [1, 1]⟩ := by
    refine ⟨?_, ?_, ?_, ?_⟩ <;> simp
  obtain ⟨n0, n1⟩ := BasisN_linear parU
  have w0 : knotAt [1, 1] 0 = 1 := by simp [knotAt, getInt?]
  have w1 : knotAt [1, 1] 1 = 1 := by simp [knotAt, getInt?]
  rw [Evaluate_basisTools _ hinv]
  dsimp only
  have e2 : ((1 : Int) + 1).toNat = 2 := by decide
  rw [e2, Finset.sum_range_succ, Finset.sum_range_succ, Finset.sum_range_zero, zero_add,
    BasisEvaluate_getD _ _ _ _ _ 0 (by decide), BasisEvaluate_getD _ _ _ _ _ 1 (by decide),
    e2, Finset.sum_range_succ, Finset.sum_range_succ, Finset.sum_range_zero, zero_add,
    FindSpan_linear]
  simp [n0, n1, w0, w1]

/-- The state after a successful `SetupData` with explicit knots and weights. -/
theorem SetupData_explicit (T : BasisTools) (self : ChLineNurbs) (morder : Int)
    (mpoints : List ChVector) (kn w : ChVectorDynamic)
    (hok : (SetupData T self morder mpoints (some kn) (some w)).1 = .ok ()) :
    (SetupData T self morder mpoints (some kn) (some w)).2 = ⟨mpoints, morder, kn, w⟩ := by
  obtain ⟨f1, f2, f3, f4, f5, f6⟩ :=
    SetupData_ok_fields T self morder mpoints (some kn) (some w) hok
  have e3 := f3 kn rfl
  have e5 := f5 w rfl
  cases hs : (SetupData T self morder mpoints (some kn) (some w)).2 with
  | mk a b c d =>
    rw [hs] at f1 f2 e3 e5
    dsimp only at f1 f2 e3 e5
    rw [f1, f2, e3, e5]

/-- C11: the linear case.  For the curve set up with order `1`, control points `P0` and `P1`,
knots `[0, 0, 1, 1]` and weights `[1, 1]`, the setup succeeds and
`Evaluate(u) = (1-u)*P0 + u*P1` for every `u` (in particular for every `u` in `[0, 1]`); with
`P0 = (0,0,0)` and `P1 = (2,0,0)`, `Evaluate(0.5) = (1,0,0)`.  The helpers are the ones of the
specification. -/
theorem linear_case (self : ChLineNurbs) (P0 P1 pos : ChVector) (parU parV parW : ℚ) :
    (SetupData basisTools self 1 [P0, P1] (some [0, 0, 1, 1]) (some [1, 1])).1 = .ok () ∧
    Evaluate basisTools
      (SetupData basisTools self 1 [P0, P1] (some [0, 0, 1, 1]) (some [1, 1])).2
      pos parU parV parW = some ((1 - parU) • P0 + parU • P1) ∧
    Evaluate basisTools
      (SetupData basisTools self 1 [(0, 0, 0), (2, 0, 0)] (some [0, 0, 1, 1]) (some [1, 1])).2
      pos (1 / 2) parV parW = some (1, 0, 0) := by
  have hok : ∀ Q0 Q1 : ChVector,
      (SetupData basisTools self 1 [Q0, Q1] (some [0, 0, 1, 1]) (some [1, 1])).1 = .ok () :=
    fun _ _ => rfl
  refine ⟨hok P0 P1, ?_, ?_⟩
  · rw [SetupData_explicit _ _ _ _ _ _ (hok P0 P1), Evaluate_linear]
  · rw [SetupData_explicit _ _ _ _ _ _ (hok _ _), Evaluate_linear]
    norm_num

/-! ## Unused parameters, copies, accesses -/

/-- C15: `Evaluate` ignores its second and third parameters: for every curve state, every `u`
and every `v, w, v', w'`, `Evaluate(u, v, w) = Evaluate(u, v', w')`. -/
theorem Evaluate_ignores_parV_parW (T : BasisTools) (self : ChLineNurbs) (pos : ChVector)
    (parU parV parW parV' parW' : ℚ) :
    Evaluate T self pos parU parV parW = Evaluate T self pos parU parV' parW' := rfl

/-- The copy constructor assigns the four members of the source: as a value, the new object
equals the source. -/
theorem ChLineNurbs_copy_eq (self source : ChLineNurbs) :
    ChLineNurbs_copy self source = source := rfl

/-- `Evaluate` on a freshly made copy is `Evaluate` on its source. -/
theorem Evaluate_copy (T : BasisTools) (self source : ChLineNurbs) (pos : ChVector)
    (parU parV parW : ℚ) :
    Evaluate T (ChLineNurbs_copy self source) pos parU parV parW =
      Evaluate T source pos parU parV parW := by
  rw [ChLineNurbs_copy_eq]

/-- C16: `Evaluate` never indexes out of bounds.  When the span locator returns `s` with
`p <= s <= n-1` (and the basis evaluator leaves the `p+1` entries of the vector `mR` it is
given), every round `i` of the loop of `Evaluate` has `0 <= i <= p` and
`0 <= s-p+i <= n-1`, its access `points[s-p+i]` falls inside `points`, its access `mR(i)`
falls inside `mR` as the basis evaluator left it, and so `Evaluate` runs through and returns
a position.  This holds on every state, in particular on those satisfying the setup
invariants, and for arbitrary helpers. -/
theorem Evaluate_accesses_in_range (T : BasisTools) (self : ChLineNurbs) (pos : ChVector)
    (parU parV parW : ℚ)
    (hs : self.p ≤ T.FindSpan self.p parU self.knots ∧
      T.FindSpan self.p parU self.knots ≤ (self.points.length : Int) - 1)
    (hR : ((T.BasisEvaluate self.p parU self.weights self.knots
      (Reset (self.p + 1))).length : Int) = self.p + 1) :
    (∀ i ∈ List.range (self.p + 1).toNat,
      (0 ≤ (i : Int) ∧ (i : Int) ≤ self.p) ∧
      (0 ≤ T.FindSpan self.p parU self.knots - self.p + i ∧
        T.FindSpan self.p parU self.knots - self.p + i ≤ (self.points.length : Int) - 1) ∧
      (getInt? self.points (T.FindSpan self.p parU self.knots - self.p + i)).isSome ∧
      (getInt? (T.BasisEvaluate self.p parU self.weights self.knots (Reset (self.p + 1)))
        i).isSome) ∧
    (Evaluate T self pos parU parV parW).isSome := by
  constructor
  · intro i hi
    rw [List.mem_range] at hi
    refine ⟨⟨by omega, by omega⟩, ⟨by omega, by omega⟩, ?_, ?_⟩
    · rw [getInt?_eq_some self.points _ 0 (by omega) (by omega)]
      rfl
    · rw [getInt?_eq_some _ _ 0 (by omega) (by omega)]
      rfl
  · rw [Evaluate_of_inRange T self pos parU parV parW hs hR]
    rfl

theorem Evaluate_accesses_in_range_witness :
    ((1 : Int) ≤ basisTools.FindSpan 1 (1 / 2) [0, 0, 1, 1] ∧
      basisTools.FindSpan 1 (1 / 2) [0, 0, 1, 1] ≤
        (([(0, 0, 0), (2, 0, 0)] : List ChVector).length : Int) - 1) ∧
    ((basisTools.BasisEvaluate 1 (1 / 2) [1, 1] [0, 0, 1, 1] (Reset (1 + 1))).length : Int)
      = 1 + 1 ∧
    ((∀ i ∈ List.range ((1 : Int) + 1).toNat,
      (0 ≤ (i : Int) ∧ (i : Int) ≤ 1) ∧
      (0 ≤ basisTools.FindSpan 1 (1 / 2) [0, 0, 1, 1] - 1 + i ∧
        basisTools.FindSpan 1 (1 / 2) [0, 0, 1, 1] - 1 + i ≤
          (([(0, 0, 0), (2, 0, 0)] : List ChVector).length : Int) - 1) ∧
      (getInt? ([(0, 0, 0), (2, 0, 0)] : List ChVector)
        (basisTools.FindSpan 1 (1 / 2) [0, 0, 1, 1] - 1 + i)).isSome ∧
      (getInt? (basisTools.BasisEvaluate 1 (1 / 2) [1, 1] [0, 0, 1, 1] (Reset (1 + 1)))
        i).isSome) ∧
    (Evaluate basisTools ⟨[(0, 0, 0), (2, 0, 0)], 1, [0, 0, 1, 1], [1, 1]⟩ (7, 7, 7)
      (1 / 2) 3 4).isSome) :=
  ⟨FindSpan_mem 1 (1 / 2) [0, 0, 1, 1] (by decide),
    congrArg Nat.cast (BasisEvaluate_length 1 (1 / 2) [1, 1] [0, 0, 1, 1] (Reset (1 + 1))),
    Evaluate_accesses_in_range basisTools ⟨[(0, 0, 0), (2, 0, 0)], 1, [0, 0, 1, 1], [1, 1]⟩
      (7, 7, 7) (1 / 2) 3 4 (FindSpan_mem 1 (1 / 2) [0, 0, 1, 1] (by decide))
      (congrArg Nat.cast
        (BasisEvaluate_length 1 (1 / 2) [1, 1] [0, 0, 1, 1] (Reset (1 + 1))))⟩

/-! ## Reinitialisation and the default constructor -/

/-- The outcome of `SetupData` does not depend on the state of the instance. -/
theorem SetupData_fst_indep (T : BasisTools) (self self' : ChLineNurbs) (morder : Int)
    (mpoints : List ChVector) (mknots weights : Option ChVectorDynamic) :
    (SetupData T self morder mpoints mknots weights).1 =
      (SetupData T self' morder mpoints mknots weights).1 := by
  rw [SetupData_fst, SetupData_fst]

/-- C17: `SetupData` fully reinitializes the instance.  When the call succeeds on one
instance it succeeds on every instance, the resulting state is the same whatever the prior
state, and calling `SetupData` a second time with the same arguments gives the outcome and
the state of the first call. -/
theorem SetupData_reinitializes (T : BasisTools) (self self' : ChLineNurbs) (morder : Int)
    (mpoints : List ChVector) (mknots weights : Option ChVectorDynamic)
    (hok : (SetupData T self morder mpoints mknots weights).1 = .ok ()) :
    (SetupData T self' morder mpoints mknots weights).1 = .ok () ∧
    (SetupData T self morder mpoints mknots weights).2 =
      (SetupData T self' morder mpoints mknots weights).2 ∧
    SetupData T (SetupData T self morder mpoints mknots weights).2 morder mpoints mknots weights
      = SetupData T self morder mpoints mknots weights := by
  have hok' : (SetupData T self' morder mpoints mknots weights).1 = .ok () := by
    rw [SetupData_fst_indep T self' self]
    exact hok
  have hok2 : (SetupData T (SetupData T self morder mpoints mknots weights).2
      morder mpoints mknots weights).1 = .ok () := by
    rw [SetupData_fst_indep T _ self]
    exact hok
  refine ⟨hok', ?_, ?_⟩
  · rw [SetupData_snd_of_ok T self _ _ _ _ hok, SetupData_snd_of_ok T self' _ _ _ _ hok']
  · refine Prod.ext ?_ ?_
    · rw [hok2, hok]
    · rw [SetupData_snd_of_ok T _ _ _ _ _ hok2, SetupData_snd_of_ok T self _ _ _ _ hok]

theorem SetupData_reinitializes_witness :
    (SetupData basisTools ⟨[(5, 5, 5), (6, 6, 6)], 1, [0, 0, 1, 1], [1, 1]⟩ 2
      [(0, 0, 0), (1, 0, 0), (2, 0, 0)] none none).1 = .ok () ∧
    ((SetupData basisTools ⟨[], 7, [3], []⟩ 2
      [(0, 0, 0), (1, 0, 0), (2, 0, 0)] none none).1 = .ok () ∧
    (SetupData basisTools ⟨[(5, 5, 5), (6, 6, 6)], 1, [0, 0, 1, 1], [1, 1]⟩ 2
      [(0, 0, 0), (1, 0, 0), (2, 0, 0)] none none).2 =
      (SetupData basisTools ⟨[], 7, [3], []⟩ 2
        [(0, 0, 0), (1, 0, 0), (2, 0, 0)] none none).2 ∧
    SetupData basisTools
      (SetupData basisTools ⟨[(5, 5, 5), (6, 6, 6)], 1, [0, 0, 1, 1], [1, 1]⟩ 2
        [(0, 0, 0), (1, 0, 0), (2, 0, 0)] none none).2 2
      [(0, 0, 0), (1, 0, 0), (2, 0, 0)] none none
      = SetupData basisTools ⟨[(5, 5, 5), (6, 6, 6)], 1, [0, 0, 1, 1], [1, 1]⟩ 2
        [(0, 0, 0), (1, 0, 0), (2, 0, 0)] none none) :=
  ⟨by decide, SetupData_reinitializes basisTools
    ⟨[(5, 5, 5), (6, 6, 6)], 1, [0, 0, 1, 1], [1, 1]⟩ ⟨[], 7, [3], []⟩ 2
    [(0, 0, 0), (1, 0, 0), (2, 0, 0)] none none (by decide)⟩

theorem construct_ok (r : Except ChException Unit × ChLineNurbs) (h : r.1 = .ok ()) :
    construct r = .ok r.2 := by
  obtain ⟨a, b⟩ := r
  simp only at h
  subst h
  rfl

/-- C18: the default constructor never fails.  It yields a curve with order `1`, exactly the
two control points `(-1,0,0)` and `(1,0,0)`, a knot vector of length `4` and the weight vector
`[1, 1]`, so the setup invariants hold for it.  The knot builder is only assumed to fill the
vector it is given without resizing it. -/
theorem ChLineNurbs_default_ready (T : BasisTools) (self : ChLineNurbs)
    (hT : ∀ knotU p, (T.ComputeKnotUniformMultipleEnds knotU p).length = knotU.length) :
    ∃ c, ChLineNurbs_default T self = .ok c ∧ c.p = 1 ∧
      c.points = [(-1, 0, 0), (1, 0, 0)] ∧ c.knots.length = 4 ∧ c.weights = [1, 1] ∧
      c.Invariants := by
  obtain ⟨hok, hst⟩ := SetupData_default T self 1 [(-1, 0, 0), (1, 0, 0)] (by decide)
    (by decide) (by decide)
  have hst' : (SetupData T self 1 [(-1, 0, 0), (1, 0, 0)] none none).2 =
      ⟨[(-1, 0, 0), (1, 0, 0)], 1, T.ComputeKnotUniformMultipleEnds (Reset 4) 1, [1, 1]⟩ := hst
  have hk : (T.ComputeKnotUniformMultipleEnds (Reset 4) 1).length = 4 := by
    rw [hT]
    rfl
  refine ⟨⟨[(-1, 0, 0), (1, 0, 0)], 1, T.ComputeKnotUniformMultipleEnds (Reset 4) 1, [1, 1]⟩,
    ?_, rfl, rfl, hk, rfl, ?_⟩
  · unfold ChLineNurbs_default
    dsimp only
    rw [construct_ok _ hok, hst']
  · refine ⟨?_, ?_, ?_, rfl⟩
    · exact le_refl _
    · dsimp only
      decide
    · dsimp only
      rw [hk]
      rfl

theorem ChLineNurbs_default_ready_witness :
    (∀ knotU p, (basisTools.ComputeKnotUniformMultipleEnds knotU p).length = knotU.length) ∧
    ∃ c, ChLineNurbs_default basisTools ⟨[], 0, [], []⟩ = .ok c ∧ c.p = 1 ∧
      c.points = [(-1, 0, 0), (1, 0, 0)] ∧ c.knots.length = 4 ∧ c.weights = [1, 1] ∧
      c.Invariants :=
  ⟨ComputeKnotUniformMultipleEnds_length,
    ChLineNurbs_default_ready basisTools ⟨[], 0, [], []⟩ ComputeKnotUniformMultipleEnds_length⟩

/-! ## Partition of unity -/

open ChBasisToolsBspline in
/-- On a non-decreasing knot vector, for a parameter in the closed span `s`, every basis value
is non-negative. -/
theorem BasisN_nonneg (knotU : ChVectorDynamic) (s : Int) (u : ℚ)
    (hmono : ∀ i j : Int, 0 ≤ i → i ≤ j → j < knotU.length → knotAt knotU i ≤ knotAt knotU j)
    (hs0 : knotAt knotU s ≤ u) (hs1 : u ≤ knotAt knotU (s + 1))
    (d : Nat) (hd : (d : Int) ≤ s + 1) (hlen : s + d < knotU.length) (i : Int) :
    0 ≤ BasisN knotU s u d i := by
  induction d generalizing i with
  | zero =>
    rw [BasisN]
    split_ifs <;> norm_num
  | succ d ih =>
    push_cast at hd hlen
    have ih' := ih (by omega) (by omega)
    rw [BasisN]
    apply add_nonneg
    · by_cases hi : s - d ≤ i ∧ i ≤ s
      · apply mul_nonneg _ (ih' i)
        apply div_nonneg
        · have := hmono i s (by omega) hi.2 (by omega)
          linarith
        · have := hmono i (i + d + 1) (by omega) (by omega) (by omega)
          linarith
      · have hz : BasisN knotU s u d i = 0 := BasisN_eq_zero _ _ _ _ _ (by omega)
        rw [hz, mul_zero]
    · by_cases hi : s - d ≤ i + 1 ∧ i + 1 ≤ s
      · apply mul_nonneg _ (ih' (i + 1))
        apply div_nonneg
        · have := hmono (s + 1) (i + d + 2) (by omega) (by omega) (by omega)
          linarith
        · have := hmono (i + 1) (i + d + 2) (by omega) (by omega) (by omega)
          linarith
      · have hz : BasisN knotU s u d (i + 1) = 0 := BasisN_eq_zero _ _ _ _ _ (by omega)
        rw [hz, mul_zero]

theorem coef_sum (a b u N : ℚ) (h : a < b) :
    (u - a) / (b - a) * N + (b - u) / (b - a) * N = N := by
  have hne : b - a ≠ 0 := sub_ne_zero.2 (ne_of_gt h)
  field_simp
  ring

open ChBasisToolsBspline in
/-- On a non-decreasing knot vector, for a non-degenerate span `s`, the `d+1` basis values of
degree `d` of the indices `s-d, ..., s` sum to `1`. -/
theorem BasisN_sum (knotU : ChVectorDynamic) (s : Int) (u : ℚ)
    (hmono : ∀ i j : Int, 0 ≤ i → i ≤ j → j < knotU.length → knotAt knotU i ≤ knotAt knotU j)
    (hnd : knotAt knotU s < knotAt knotU (s + 1))
    (d : Nat) (hd : (d : Int) ≤ s + 1) (hlen : s + d < knotU.length) :
    ∑ k in Finset.range (d + 1), BasisN knotU s u d (s - d + k) = 1 := by
  induction d with
  | zero => simp [BasisN]
  | succ d ih =>
    push_cast at hd hlen ⊢
    have ih' := ih (by omega) (by omega)
    simp only [BasisN]
    rw [Finset.sum_add_distrib, Finset.sum_range_succ', Finset.sum_range_succ _ (d + 1)]
    have z1 : BasisN knotU s u d (s - ((d : Int) + 1) + ((0 : Nat) : Int)) = 0 :=
      BasisN_eq_zero _ _ _ _ _ (Or.inr (by push_cast; omega))
    have z2 : BasisN knotU s u d (s - ((d : Int) + 1) + ((d + 1 : Nat) : Int) + 1) = 0 :=
      BasisN_eq_zero _ _ _ _ _ (Or.inl (by push_cast; omega))
    rw [z1, z2, mul_zero, mul_zero, add_zero, add_zero, ← Finset.sum_add_distrib, ← ih']
    apply Finset.sum_congr rfl
    intro k hk
    rw [Finset.mem_range] at hk
    have e1 : s - ((d : Int) + 1) + ((k + 1 : Nat) : Int) = s - d + k := by push_cast; ring
    have e2 : s - ((d : Int) + 1) + (k : Int) + 1 = s - d + k := by ring
    have e3 : s - ((d : Int) + 1) + (k : Int) + d + 2 = s - d + k + d + 1 := by ring
    rw [e1, e2, e3]
    apply coef_sum
    have h1 := hmono (s - d + k) s (by omega) (by omega) (by omega)
    have h2 := hmono (s + 1) (s - d + k + d + 1) (by omega) (by omega) (by omega)
    linarith

/-- A parameter between `knot[p]` and `knot[p+m]` lies in one of the `m` spans in between. -/
theorem exists_span (knotU : ChVectorDynamic) (p : Int) (u : ℚ) (m : Nat)
    (h0 : knotAt knotU p ≤ u) (h1 : u < knotAt knotU (p + m)) :
    ∃ j : Nat, j < m ∧ knotAt knotU (p + j) ≤ u ∧ u < knotAt knotU (p + j + 1) := by
  induction m with
  | zero =>
    simp only [Nat.cast_zero, add_zero] at h1
    exact absurd (lt_of_le_of_lt h0 h1) (lt_irrefl _)
  | succ m ih =>
    by_cases c : u < knotAt knotU (p + m)
    · obtain ⟨j, hj, hj'⟩ := ih c
      exact ⟨j, by omega, hj'⟩
    · refine ⟨m, by omega, not_lt.1 c, ?_⟩
      have e : p + ((m + 1 : Nat) : Int) = p + m + 1 := by push_cast; ring
      rw [e] at h1
      exact h1

open ChBasisToolsBspline in
/-- Inside the domain and below its upper boundary the locator returns a span that contains
the parameter. -/
theorem FindSpan_interior (p : Int) (u : ℚ) (knotU : ChVectorDynamic)
    (hn : p + 1 ≤ (knotU.length : Int) - p - 1)
    (h1 : u < knotAt knotU ((knotU.length : Int) - p - 1)) (h2 : knotAt knotU p ≤ u) :
    knotAt knotU (FindSpan p u knotU) ≤ u ∧ u < knotAt knotU (FindSpan p u knotU + 1) := by
  unfold FindSpan
  simp only []
  rw [if_neg (not_le.2 h1), if_neg (not_lt.2 h2)]
  split
  · rename_i j hj
    have hj' := List.find?_some hj
    simpa using hj'
  · rename_i hnone
    rw [List.find?_eq_none] at hnone
    have e : p + ((((knotU.length : Int) - p - 1 - p).toNat : Nat) : Int)
        = (knotU.length : Int) - p - 1 := by omega
    obtain ⟨j, hj, hj'⟩ := exists_span knotU p u ((knotU.length : Int) - p - 1 - p).toNat h2
      (by rw [e]; exact h1)
    exact absurd (by simpa using hj') (hnone j (List.mem_range.2 hj))

theorem knotAt_mono_of_pairwise (knotU : ChVectorDynamic) (h : knotU.Pairwise (· ≤ ·))
    (i j : Int) (h0 : 0 ≤ i) (hij : i ≤ j) (hj : j < knotU.length) :
    knotAt knotU i ≤ knotAt knotU j := by
  rcases eq_or_lt_of_le hij with e | hlt
  · rw [e]
  · have hi' : i.toNat < knotU.length := by omega
    have hj' : j.toNat < knotU.length := by omega
    have := (List.pairwise_iff_getElem.1 h) i.toNat j.toNat hi' hj' (by omega)
    rw [getElem_eq_knotAt _ _ hi', getElem_eq_knotAt _ _ hj', Int.toNat_of_nonneg h0,
      Int.toNat_of_nonneg (by omega)] at this
    exact this

theorem knotAt_pos_of_forall (Weights : ChVectorDynamic) (h : ∀ w ∈ Weights, 0 < w)
    (i : Int) (h0 : 0 ≤ i) (hi : i < Weights.length) : 0 < knotAt Weights i := by
  have hi' : i.toNat < Weights.length := by omega
  have := h _ (List.getElem_mem hi')
  rw [getElem_eq_knotAt _ _ hi', Int.toNat_of_nonneg h0] at this
  exact this

open ChBasisToolsBspline in
/-- The span located for a parameter of the domain, on a state satisfying the invariants with
non-decreasing knots: it is a valid span, it contains the parameter, and it is not degenerate
as soon as the parameter is below the upper boundary or the last span is not degenerate. -/
theorem FindSpan_domain (self : ChLineNurbs) (hinv : self.Invariants) (parU : ℚ)
    (hmono : ∀ i j : Int, 0 ≤ i → i ≤ j → j < self.knots.length →
      knotAt self.knots i ≤ knotAt self.knots j)
    (hu0 : knotAt self.knots self.p ≤ parU)
    (hu1 : parU ≤ knotAt self.knots (self.points.length : Int))
    (hnd : parU < knotAt self.knots (self.points.length : Int) ∨
      knotAt self.knots ((self.points.length : Int) - 1) <
        knotAt self.knots (self.points.length : Int)) :
    self.p ≤ FindSpan self.p parU self.knots ∧
    FindSpan self.p parU self.knots ≤ (self.points.length : Int) - 1 ∧
    knotAt self.knots (FindSpan self.p parU self.knots) ≤ parU ∧
    parU ≤ knotAt self.knots (FindSpan self.p parU self.knots + 1) ∧
    knotAt self.knots (FindSpan self.p parU self.knots) <
      knotAt self.knots (FindSpan self.p parU self.knots + 1) := by
  obtain ⟨h1, h2, h3, h4⟩ := hinv
  have e : (self.knots.length : Int) - self.p - 1 = (self.points.length : Int) := by omega
  have hmem := FindSpan_mem self.p parU self.knots (by omega)
  refine ⟨hmem.1, by omega, ?_⟩
  by_cases c : parU < knotAt self.knots (self.points.length : Int)
  · have hi := FindSpan_interior self.p parU self.knots (by omega) (by rw [e]; exact c) hu0
    exact ⟨hi.1, le_of_lt hi.2, lt_of_le_of_lt hi.1 hi.2⟩
  · have hlast := hnd.resolve_left c
    have hs : FindSpan self.p parU self.knots = (self.points.length : Int) - 1 := by
      rw [FindSpan_upper _ _ _ (by rw [e]; exact not_lt.1 c), e]
    have e2 : (self.points.length : Int) - 1 + 1 = (self.points.length : Int) := by omega
    rw [hs, e2]
    exact ⟨le_trans (le_of_lt hlast) (not_lt.1 c), hu1, hlast⟩

open ChBasisToolsBspline in
/-- Partition of unity for the rational basis values: on a state satisfying the invariants,
with non-decreasing knots and positive weights, for a parameter of the domain whose located
span is not degenerate, the `p+1` values left by the basis evaluator sum to `1`. -/
theorem BasisEvaluate_sum_eq_one (self : ChLineNurbs) (hinv : self.Invariants) (parU : ℚ)
    (R : ChVectorDynamic)
    (hmono : ∀ i j : Int, 0 ≤ i → i ≤ j → j < self.knots.length →
      knotAt self.knots i ≤ knotAt self.knots j)
    (hw : ∀ i : Int, 0 ≤ i → i < self.weights.length → 0 < knotAt self.weights i)
    (hu0 : knotAt self.knots self.p ≤ parU)
    (hu1 : parU ≤ knotAt self.knots (self.points.length : Int))
    (hnd : parU < knotAt self.knots (self.points.length : Int) ∨
      knotAt self.knots ((self.points.length : Int) - 1) <
        knotAt self.knots (self.points.length : Int)) :
    ∑ k in Finset.range (self.p + 1).toNat,
      (ChBasisToolsNurbs.BasisEvaluate self.p parU self.weights self.knots R).getD k 0 = 1 := by
  obtain ⟨s1, s2, s3, s4, s5⟩ := FindSpan_domain self hinv parU hmono hu0 hu1 hnd
  obtain ⟨h1, h2, h3, h4⟩ := hinv
  have ep : ((self.p.toNat : Nat) : Int) = self.p := Int.toNat_of_nonneg (by omega)
  have er : (self.p + 1).toNat = self.p.toNat + 1 := by omega
  have hsum := BasisN_sum self.knots (FindSpan self.p parU self.knots) parU hmono s5
    self.p.toNat (by omega) (by omega)
  rw [ep, ← er] at hsum
  have hnn : ∀ k : Nat, 0 ≤ BasisN self.knots (FindSpan self.p parU self.knots) parU
      self.p.toNat (FindSpan self.p parU self.knots - self.p + k) := fun k =>
    BasisN_nonneg self.knots _ parU hmono s3 s4 self.p.toNat (by omega) (by omega) _
  have hden : ∑ k in Finset.range (self.p + 1).toNat,
      BasisN self.knots (FindSpan self.p parU self.knots) parU self.p.toNat
          (FindSpan self.p parU self.knots - self.p + k) *
        knotAt self.weights (FindSpan self.p parU self.knots - self.p + k) ≠ 0 := by
    intro h0
    rw [Finset.sum_eq_zero_iff_of_nonneg] at h0
    · have hz : ∑ k in Finset.range (self.p + 1).toNat,
          BasisN self.knots (FindSpan self.p parU self.knots) parU self.p.toNat
            (FindSpan self.p parU self.knots - self.p + k) = 0 := by
        apply Finset.sum_eq_zero
        intro k hk
        have hk' := Finset.mem_range.1 hk
        have hwk := hw (FindSpan self.p parU self.knots - self.p + k) (by omega) (by omega)
        rcases mul_eq_zero.1 (h0 k hk) with hN | hW
        · exact hN
        · exact absurd hW (ne_of_gt hwk)
      rw [hz] at hsum
      exact zero_ne_one hsum
    · intro k hk
      have hk' := Finset.mem_range.1 hk
      exact mul_nonneg (hnn k)
        (le_of_lt (hw (FindSpan self.p parU self.knots - self.p + k) (by omega) (by omega)))
  rw [Finset.sum_congr rfl (fun k hk =>
    BasisEvaluate_getD self.p parU self.weights self.knots R k (Finset.mem_range.1 hk)),
    ← Finset.sum_div, div_self hden]

/-- All control points being one point, every entry read from `points` is that point. -/
theorem getD_of_forall_eq (points : List ChVector) (P : ChVector) (h : ∀ Q ∈ points, Q = P)
    (i : Nat) (hi : i < points.length) : points.getD i 0 = P := by
  rw [List.getD_eq_getElem?_getD, List.getElem?_eq_getElem hi]
  exact h _ (List.getElem_mem hi)

/-- When the values left by the basis evaluator sum to `1` and all control points are one
point `P`, `Evaluate` returns `P`. -/
theorem Evaluate_of_sum_eq_one (self : ChLineNurbs) (hinv : self.Invariants) (pos : ChVector)
    (parU parV parW : ℚ) (P : ChVector) (hP : ∀ Q ∈ self.points, Q = P)
    (hsum : ∑ k in Finset.range (self.p + 1).toNat,
      (ChBasisToolsNurbs.BasisEvaluate self.p parU self.weights self.knots
        (Reset (self.p + 1))).getD k 0 = 1) :
    Evaluate basisTools self pos parU parV parW = some P := by
  have hs := FindSpan_mem self.p parU self.knots (by have := hinv; unfold Invariants at this; omega)
  have h2 := hinv.2.1
  have h3 := hinv.2.2.1
  rw [Evaluate_basisTools self hinv, Finset.sum_congr rfl (fun k hk => by
    rw [getD_of_forall_eq self.points P hP _ (by have := Finset.mem_range.1 hk; omega)]),
    ← Finset.sum_smul, hsum, one_smul]

/-- C13 (amended): partition of unity.  For every curve state satisfying the setup invariants
with a non-decreasing knot vector and strictly positive weights, and every `u` in the domain
`[knots[p], knots[n]]` that is below the upper boundary `knots[n]` or for which the last span
is not degenerate (`knots[n-1] < knots[n]`), the `p+1` rational basis values that `Evaluate`
obtains from the basis evaluator sum to `1`; consequently, if all control points equal one
point `P`, `Evaluate(u) = P`.  The helpers are the ones of the specification. -/
theorem partition_of_unity (self : ChLineNurbs) (pos : ChVector) (parU parV parW : ℚ)
    (P : ChVector) (hinv : self.Invariants) (hsorted : self.knots.Pairwise (· ≤ ·))
    (hpos : ∀ w ∈ self.weights, 0 < w)
    (hu0 : knotAt self.knots self.p ≤ parU)
    (hu1 : parU ≤ knotAt self.knots (self.points.length : Int))
    (hnd : parU < knotAt self.knots (self.points.length : Int) ∨
      knotAt self.knots ((self.points.length : Int) - 1) <
        knotAt self.knots (self.points.length : Int)) :
    ∑ k in Finset.range (self.p + 1).toNat,
      (basisTools.BasisEvaluate self.p parU self.weights self.knots
        (Reset (self.p + 1))).getD k 0 = 1 ∧
    ((∀ Q ∈ self.points, Q = P) → Evaluate basisTools self pos parU parV parW = some P) := by
  have hsum := BasisEvaluate_sum_eq_one self hinv parU (Reset (self.p + 1))
    (knotAt_mono_of_pairwise self.knots hsorted) (knotAt_pos_of_forall self.weights hpos)
    hu0 hu1 hnd
  exact ⟨hsum, fun hP => Evaluate_of_sum_eq_one self hinv pos parU parV parW P hP hsum⟩

theorem partition_of_unity_witness :
    ChLineNurbs.Invariants ⟨[(1, 2, 3), (1, 2, 3), (1, 2, 3), (1, 2, 3)], 2,
      [0, 0, 0, 1 / 2, 1, 1, 1], [1, 2, 1, 3]⟩ ∧
    ([0, 0, 0, 1 / 2, 1, 1, 1] : ChVectorDynamic).Pairwise (· ≤ ·) ∧
    (∀ w ∈ ([1, 2, 1, 3] : ChVectorDynamic), 0 < w) ∧
    knotAt [0, 0, 0, 1 / 2, 1, 1, 1] 2 ≤ 1 / 2 ∧
    (1 / 2 : ℚ) ≤ knotAt [0, 0, 0, 1 / 2, 1, 1, 1]
      (([(1, 2, 3), (1, 2, 3), (1, 2, 3), (1, 2, 3)] : List ChVector).length : Int) ∧
    ((1 / 2 : ℚ) < knotAt [0, 0, 0, 1 / 2, 1, 1, 1]
        (([(1, 2, 3), (1, 2, 3), (1, 2, 3), (1, 2, 3)] : List ChVector).length : Int) ∨
      knotAt [0, 0, 0, 1 / 2, 1, 1, 1]
        ((([(1, 2, 3), (1, 2, 3), (1, 2, 3), (1, 2, 3)] : List ChVector).length : Int) - 1) <
      knotAt [0, 0, 0, 1 / 2, 1, 1, 1]
        (([(1, 2, 3), (1, 2, 3), (1, 2, 3), (1, 2, 3)] : List ChVector).length : Int)) ∧
    (∑ k in Finset.range ((2 : Int) + 1).toNat,
      (basisTools.BasisEvaluate 2 (1 / 2) [1, 2, 1, 3] [0, 0, 0, 1 / 2, 1, 1, 1]
        (Reset (2 + 1))).getD k 0 = 1 ∧
    ((∀ Q ∈ ([(1, 2, 3), (1, 2, 3), (1, 2, 3), (1, 2, 3)] : List ChVector), Q = (1, 2, 3)) →
      Evaluate basisTools ⟨[(1, 2, 3), (1, 2, 3), (1, 2, 3), (1, 2, 3)], 2,
        [0, 0, 0, 1 / 2, 1, 1, 1], [1, 2, 1, 3]⟩ (0, 0, 0) (1 / 2) 0 0 = some (1, 2, 3))) :=
  have hK2 : knotAt [0, 0, 0, 1 / 2, 1, 1, 1] 2 = 0 := by simp [knotAt, getInt?]
  have hK4 : knotAt [0, 0, 0, 1 / 2, 1, 1, 1]
      (([(1, 2, 3), (1, 2, 3), (1, 2, 3), (1, 2, 3)] : List ChVector).length : Int) = 1 := by
    simp [knotAt, getInt?]
  have h1 : ChLineNurbs.Invariants ⟨[(1, 2, 3), (1, 2, 3), (1, 2, 3), (1, 2, 3)], 2,
      [0, 0, 0, 1 / 2, 1, 1, 1], [1, 2, 1, 3]⟩ := by decide
  have h2 : ([0, 0, 0, 1 / 2, 1, 1, 1] : ChVectorDynamic).Pairwise (· ≤ ·) := by
    simp only [List.pairwise_cons, List.mem_cons, forall_eq_or_imp]
    norm_num
  have h3 : ∀ w ∈ ([1, 2, 1, 3] : ChVectorDynamic), 0 < w := by
    simp only [List.mem_cons, forall_eq_or_imp]
    norm_num
  have h4 : knotAt [0, 0, 0, 1 / 2, 1, 1, 1] 2 ≤ 1 / 2 := by rw [hK2]; norm_num
  have h5 : (1 / 2 : ℚ) ≤ knotAt [0, 0, 0, 1 / 2, 1, 1, 1]
      (([(1, 2, 3), (1, 2, 3), (1, 2, 3), (1, 2, 3)] : List ChVector).length : Int) := by
    rw [hK4]; norm_num
  have h6 : (1 / 2 : ℚ) < knotAt [0, 0, 0, 1 / 2, 1, 1, 1]
      (([(1, 2, 3), (1, 2, 3), (1, 2, 3), (1, 2, 3)] : List ChVector).length : Int) := by
    rw [hK4]; norm_num
  ⟨h1, h2, h3, h4, h5, Or.inl h6,
    partition_of_unity ⟨[(1, 2, 3), (1, 2, 3), (1, 2, 3), (1, 2, 3)], 2,
      [0, 0, 0, 1 / 2, 1, 1, 1], [1, 2, 1, 3]⟩ (0, 0, 0) (1 / 2) 0 0 (1, 2, 3)
      h1 h2 h3 h4 h5 (Or.inl h6)⟩

open ChBasisToolsBspline in
/-- C13 as stated fails at the upper boundary of a knot vector whose last span is degenerate.
The curve of order `1` with four control points `(1,1,1)`, knots `[0, 0, 1, 1, 1, 1]`
(non-decreasing) and weights `[1, 1, 1, 1]` (positive) is produced by a successful setup;
`u = 1` lies in its domain `[knots[1], knots[4]] = [0, 1]`; the located span is `3`, with
`knots[3] = knots[4]`; the two basis values are `0`, so they sum to `0`, not to `1`, and
`Evaluate(1)` is `(0,0,0)`, not `(1,1,1)`. -/
theorem partition_of_unity_fails_on_degenerate_span :
    SetupData basisTools ⟨[], 0, [], []⟩ 1 [(1, 1, 1), (1, 1, 1), (1, 1, 1), (1, 1, 1)]
        (some [0, 0, 1, 1, 1, 1]) (some [1, 1, 1, 1]) =
      (.ok (), ⟨[(1, 1, 1), (1, 1, 1), (1, 1, 1), (1, 1, 1)], 1, [0, 0, 1, 1, 1, 1],
        [1, 1, 1, 1]⟩) ∧
    ([0, 0, 1, 1, 1, 1] : ChVectorDynamic).Pairwise (· ≤ ·) ∧
    (∀ w ∈ ([1, 1, 1, 1] : ChVectorDynamic), 0 < w) ∧
    knotAt [0, 0, 1, 1, 1, 1] 1 ≤ 1 ∧ (1 : ℚ) ≤ knotAt [0, 0, 1, 1, 1, 1] 4 ∧
    ¬ (∑ k in Finset.range ((1 : Int) + 1).toNat,
      (basisTools.BasisEvaluate 1 1 [1, 1, 1, 1] [0, 0, 1, 1, 1, 1] (Reset (1 + 1))).getD k 0
        = 1) ∧
    Evaluate basisTools ⟨[(1, 1, 1), (1, 1, 1), (1, 1, 1), (1, 1, 1)], 1, [0, 0, 1, 1, 1, 1],
      [1, 1, 1, 1]⟩ (0, 0, 0) 1 0 0 = some (0, 0, 0) ∧
    Evaluate basisTools ⟨[(1, 1, 1), (1, 1, 1), (1, 1, 1), (1, 1, 1)], 1, [0, 0, 1, 1, 1, 1],
      [1, 1, 1, 1]⟩ (0, 0, 0) 1 0 0 ≠ some (1, 1, 1) := by
  have hok : (SetupData basisTools ⟨[], 0, [], []⟩ 1
      [(1, 1, 1), (1, 1, 1), (1, 1, 1), (1, 1, 1)]
      (some [0, 0, 1, 1, 1, 1]) (some [1, 1, 1, 1])).1 = .ok () := by decide
  have hinv : ChLineNurbs.Invariants ⟨[(1, 1, 1), (1, 1, 1), (1, 1, 1), (1, 1, 1)], 1,
      [0, 0, 1, 1, 1, 1], [1, 1, 1, 1]⟩ := by decide
  have hKn : knotAt [0, 0, 1, 1, 1, 1]
      ((([0, 0, 1, 1, 1, 1] : ChVectorDynamic).length : Int) - 1 - 1) ≤ 1 := by
    simp [knotAt, getInt?]
  have hs : FindSpan 1 1 [0, 0, 1, 1, 1, 1] = 3 := by
    rw [FindSpan_upper 1 1 _ hKn]
    simp
  have n2 : BasisN [0, 0, 1, 1, 1, 1] 3 1 1 2 = 0 := by simp [BasisN, knotAt, getInt?]
  have n3 : BasisN [0, 0, 1, 1, 1, 1] 3 1 1 3 = 0 := by simp [BasisN, knotAt, getInt?]
  have e2 : ((1 : Int) + 1).toNat = 2 := by decide
  have r0 : (ChBasisToolsNurbs.BasisEvaluate 1 1 [1, 1, 1, 1] [0, 0, 1, 1, 1, 1]
      (Reset (1 + 1))).getD 0 0 = 0 := by
    rw [BasisEvaluate_getD _ _ _ _ _ 0 (by decide), hs]
    simp [n2]
  have r1 : (ChBasisToolsNurbs.BasisEvaluate 1 1 [1, 1, 1, 1] [0, 0, 1, 1, 1, 1]
      (Reset (1 + 1))).getD 1 0 = 0 := by
    rw [BasisEvaluate_getD _ _ _ _ _ 1 (by decide), hs]
    simp [n3]
  have hE : Evaluate basisTools ⟨[(1, 1, 1), (1, 1, 1), (1, 1, 1), (1, 1, 1)], 1,
      [0, 0, 1, 1, 1, 1], [1, 1, 1, 1]⟩ (0, 0, 0) 1 0 0 = some (0, 0, 0) := by
    rw [Evaluate_basisTools _ hinv]
    dsimp only
    rw [e2, Finset.sum_range_succ, Finset.sum_range_succ, Finset.sum_range_zero, r0, r1]
    simp
  refine ⟨?_, ?_, ?_, ?_, ?_, ?_, hE, ?_⟩
  · exact Prod.ext hok (SetupData_explicit _ _ _ _ _ _ hok)
  · simp only [List.pairwise_cons, List.mem_cons, forall_eq_or_imp]
    norm_num
  · simp only [List.mem_cons, forall_eq_or_imp]
    norm_num
  · simp [knotAt, getInt?]
  · simp [knotAt, getInt?]
  · simp only [basisTools]
    rw [e2, Finset.sum_range_succ, Finset.sum_range_succ, Finset.sum_range_zero, r0, r1]
    norm_num
  · rw [hE]
    simp

/-! ## Dependence on the parameter -/

/-- `Evaluate` contains no treatment of the parameter of its own: it hands `parU` unchanged to
the two helpers, and its result depends on `parU` only through what they return. -/
theorem Evaluate_eq_of_helpers_eq (T : BasisTools) (self : ChLineNurbs) (pos : ChVector)
    (parU parU' parV parW : ℚ)
    (hs : T.FindSpan self.p parU self.knots = T.FindSpan self.p parU' self.knots)
    (hR : T.BasisEvaluate self.p parU self.weights self.knots (Reset (self.p + 1)) =
      T.BasisEvaluate self.p parU' self.weights self.knots (Reset (self.p + 1))) :
    Evaluate T self pos parU parV parW = Evaluate T self pos parU' parV parW := by
  unfold Evaluate
  simp only [hs, hR]

end geometry
end chrono
